import Mathlib

/-!
Shallow embedding of `alvr/adb/src/lib.rs` (the ALVR wired-connection manager).

The device bridge (adb) is modelled as an environment `Env` of query functions,
each returning `Except String` to model bridge-level failures.  A `setup` call
is a pure function of that environment, the filesystem view `Fsys`, the call
time `now` (wall-clock seconds, `Instant` modelled as `Nat`), the arguments of
`WiredConnection::setup`, and the manager state (the two optional timestamps).
It returns an `Outcome`: the `Result<WiredConnectionStatus>`, the new manager
state, and the ordered trace of bridge operations issued during the call.
-/

namespace Alvr

/-- Status returned by `WiredConnection::setup` (`lib.rs` lines 18-21). -/
inductive WiredConnectionStatus where
  | Ready
  | NotReady (reason : String)
deriving DecidableEq, Repr

/-- Device record from `commands::list_devices`: only the optional serial is
used by `setup` (line 50). -/
structure AdbDevice where
  serial : Option String
deriving DecidableEq, Repr

/-- Mutable fields of `WiredConnection` (lines 23-27): the two optional
timestamps, `Instant` modelled as wall-clock seconds. -/
structure ManagerState where
  initialAutolaunchDelay : Option Nat
  postAutolaunchDelay : Option Nat
deriving DecidableEq, Repr

/-- Auto-install descriptor (`alvr_session::WiredClientAutoInstallConfig`):
package file location plus permissions to grant after install. -/
structure WiredClientAutoInstallConfig where
  clientPackageLocation : String
  permissions : List String
deriving DecidableEq, Repr

/-- Client flavor from `alvr_system_info` (lines 194-218 match on it). -/
inductive ClientFlavor where
  | Store
  | Github
  | Custom (name : String)
deriving DecidableEq, Repr

/-- Bridge operations issued by `setup`, recorded in order.  `removeForward`
exists in the bridge protocol but is never issued by this code; it is included
so that the absence of forward-removal requests is statable. -/
inductive BridgeOp where
  | listDevices
  | listForwardedPorts (serial : String)
  | forwardPort (serial : String) (port : Nat)
  | removeForward (serial : String) (port : Nat)
  | getPackageSha1 (serial pkg : String)
  | installPackage (serial apkPath : String)
  | uninstallPackage (serial pkg : String)
  | grantPermission (serial pkg perm : String)
  | isPackageInstalled (serial pkg : String)
  | getProcessId (serial pkg : String)
  | isActivityResumed (serial pkg : String)
  | startApplication (serial pkg : String)
deriving DecidableEq, Repr

/-- The device-bridge environment: the answer each `commands::*` query would
return during this `setup` call.  `listForwardedPorts` yields the `local` port
of each forward rule (line 73 keeps only that field). -/
structure Env where
  listDevices : Except String (List AdbDevice)
  listForwardedPorts : String → Except String (List Nat)
  forwardPort : String → Nat → Except String Unit
  getPackageSha1 : String → String → Except String (Option String)
  installPackage : String → String → Except String Unit
  uninstallPackage : String → String → Except String Unit
  grantPermission : String → String → String → Except String Unit
  isPackageInstalled : String → String → Except String Bool
  getProcessId : String → String → Except String (Option Nat)
  isActivityResumed : String → String → Except String Bool
  startApplication : String → String → Except String Unit

/-- Filesystem view used by the auto-install step: path existence (line 94) and
the SHA-1 of a file contents in lowercase hex (lines 103-107), whose read can
fail with an I/O error. -/
structure Fsys where
  pathExists : String → Bool
  fileSha1 : String → Except String String

instance {ε α : Type} [DecidableEq ε] [DecidableEq α] : DecidableEq (Except ε α) := fun x y =>
  match x, y with
  | .ok a, .ok b =>
    match decEq a b with
    | isTrue h => isTrue (h ▸ rfl)
    | isFalse h => isFalse (fun he => h (Except.ok.inj he))
  | .error a, .error b =>
    match decEq a b with
    | isTrue h => isTrue (h ▸ rfl)
    | isFalse h => isFalse (fun he => h (Except.error.inj he))
  | .ok _, .error _ => isFalse (fun he => Except.noConfusion he)
  | .error _, .ok _ => isFalse (fun he => Except.noConfusion he)

/-- Result of one `setup` call: the returned `Result`, the new manager state,
and the ordered trace of bridge operations issued. -/
structure Outcome where
  result : Except String WiredConnectionStatus
  mgr : ManagerState
  trace : List BridgeOp
deriving DecidableEq, Repr

/-- Pre-autolaunch grace period, `Duration::from_secs(15)` at line 148. -/
def preAutolaunchDelaySecs : Nat := 15

/-- Post-autolaunch grace period, `Duration::from_secs(5)` at line 171. -/
def postAutolaunchDelaySecs : Nat := 5

/-- Package name constants from `alvr_system_info` (not under `src/`); their
concrete values are irrelevant, only their identity as tokens matters. -/
def PACKAGE_NAME_STORE : String := "alvr.client"

/-- Stable GitHub-channel package name from `alvr_system_info`. -/
def PACKAGE_NAME_GITHUB_STABLE : String := "alvr.client.stable"

/-- Dev GitHub-channel package name from `alvr_system_info`. -/
def PACKAGE_NAME_GITHUB_DEV : String := "alvr.client.dev"

/-- `get_application_ids` (lines 194-218); `alvr_common::is_stable()` is the
build-channel flag, passed explicitly as `isStable`. -/
def get_application_ids (isStable : Bool) (flavor : ClientFlavor) : List String :=
  match flavor with
  | .Store =>
    if isStable then [PACKAGE_NAME_STORE, PACKAGE_NAME_GITHUB_STABLE]
    else [PACKAGE_NAME_GITHUB_DEV]
  | .Github =>
    if isStable then [PACKAGE_NAME_GITHUB_STABLE, PACKAGE_NAME_STORE]
    else [PACKAGE_NAME_GITHUB_DEV]
  | .Custom name =>
    if isStable then [name, PACKAGE_NAME_STORE, PACKAGE_NAME_GITHUB_STABLE]
    else [name, PACKAGE_NAME_GITHUB_DEV]

/-- Rust `str::starts_with` (lines 51 and 88), modelled on the character
list. -/
def strStartsWith (s pat : String) : Bool := pat.data.isPrefixOf s.data

/-- ASCII lowercase of one character, as in Rust `u8::to_ascii_lowercase`. -/
def asciiToLower (c : Char) : Char :=
  if 'A' ≤ c ∧ c ≤ 'Z' then Char.ofNat (c.toNat + 32) else c

/-- Rust `str::eq_ignore_ascii_case` (line 110). -/
def eqIgnoreAsciiCase (a b : String) : Bool :=
  a.data.map asciiToLower == b.data.map asciiToLower

/-- Rust `Path::is_relative` (line 88), Unix model: relative iff it does not
start with the path separator. -/
def isRelativePath (p : String) : Bool := !strStartsWith p "/"

/-- Rust `Path::join` (line 89), Unix model. -/
def joinPath (base p : String) : String := base ++ "/" ++ p

/-- Lines 86-90: resolve the auto-install source path against the static
resources directory when it is relative. -/
def resolveAutoInstallPath (staticResourcesDir loc : String) : String :=
  if isRelativePath loc then joinPath staticResourcesDir loc else loc

/-- Lines 69 and 75: `HashSet::from([control_port, stream_port])` minus the
forwarded local ports.  The set deduplicates equal ports; iteration order of
the Rust `HashSet` is unspecified, fixed here as control port first. -/
def missingPorts (controlPort streamPort : Nat) (forwarded : List Nat) : List Nat :=
  (if streamPort = controlPort then [controlPort] else [controlPort, streamPort]).filter
    (fun p => !forwarded.contains p)

/-- Lines 76-81: forward each missing port, stopping at the first bridge
failure (`?`).  The attempted operation is recorded even when it fails. -/
def forwardLoop (env : Env) (serial : String) :
    List Nat → List BridgeOp → Except String Unit × List BridgeOp
  | [], trace => (.ok (), trace)
  | p :: rest, trace =>
    match env.forwardPort serial p with
    | .ok _ => forwardLoop env serial rest (trace ++ [.forwardPort serial p])
    | .error e => (.error e, trace ++ [.forwardPort serial p])

/-- Lines 116-121 and 129-134: `try_for_each` over the permissions, stopping at
the first grant failure. -/
def grantLoop (env : Env) (serial appId : String) :
    List String → List BridgeOp → Except String Unit × List BridgeOp
  | [], trace => (.ok (), trace)
  | perm :: rest, trace =>
    match env.grantPermission serial appId perm with
    | .ok _ => grantLoop env serial appId rest (trace ++ [.grantPermission serial appId perm])
    | .error e => (.error e, trace ++ [.grantPermission serial appId perm])

/-- Install the package then grant every listed permission (lines 115-121 and
128-134 share this shape). -/
def installAndGrant (env : Env) (serial appId apkPath : String) (permissions : List String)
    (trace : List BridgeOp) : Except String Unit × List BridgeOp :=
  match env.installPackage serial apkPath with
  | .error e => (.error e, trace ++ [.installPackage serial apkPath])
  | .ok _ => grantLoop env serial appId permissions (trace ++ [.installPackage serial apkPath])

/-- The auto-install step of `setup`, lines 85-137: if a descriptor is
supplied, the resolved source path exists and the candidate list is non-empty,
compare the installed digest of the first candidate against the local file
digest and install, uninstall-then-install, or do nothing accordingly. -/
def autoInstallStep (env : Env) (fsys : Fsys) (serial : String) (applicationIds : List String)
    (staticResourcesDir : String) :
    Option WiredClientAutoInstallConfig → List BridgeOp → Except String Unit × List BridgeOp
  | none, trace => (.ok (), trace)
  | some cfg, trace =>
    let path := resolveAutoInstallPath staticResourcesDir cfg.clientPackageLocation
    if fsys.pathExists path then
      match applicationIds.head? with
      | none => (.ok (), trace)
      | some applicationId =>
        let trace := trace ++ [.getPackageSha1 serial applicationId]
        match env.getPackageSha1 serial applicationId with
        | .error e => (.error e, trace)
        | .ok (some installedSha1) =>
          match fsys.fileSha1 path with
          | .error e => (.error e, trace)
          | .ok hashStr =>
            if !eqIgnoreAsciiCase installedSha1 hashStr then
              match env.uninstallPackage serial applicationId with
              | .error e => (.error e, trace ++ [.uninstallPackage serial applicationId])
              | .ok _ =>
                installAndGrant env serial applicationId path cfg.permissions
                  (trace ++ [.uninstallPackage serial applicationId])
            else (.ok (), trace)
        | .ok none => installAndGrant env serial applicationId path cfg.permissions trace
    else (.ok (), trace)

/-- `get_process_name` (lines 220-232): the first candidate that the bridge
reports installed; a bridge error on the query is treated as not installed
(`is_ok_and`), not propagated.  Each probe is recorded in the trace. -/
def get_process_name (env : Env) (serial : String) :
    List String → List BridgeOp → Option String × List BridgeOp
  | [], trace => (none, trace)
  | appId :: rest, trace =>
    let trace := trace ++ [.isPackageInstalled serial appId]
    match env.isPackageInstalled serial appId with
    | .ok true => (some appId, trace)
    | .ok false => get_process_name env serial rest trace
    | .error _ => get_process_name env serial rest trace

/-- Lines 139-181 of `setup`: candidate selection, process-presence check,
autolaunch with its two debounce windows, and the activity-resumed ladder. -/
def processPhase (env : Env) (deviceSerial : String) (applicationIds : List String)
    (clientAutolaunch : Bool) (now initialAutolaunchDelay : Nat)
    (mgr : ManagerState) (trace : List BridgeOp) : Outcome :=
  match get_process_name env deviceSerial applicationIds trace with
  | (none, trace) => ⟨.ok (.NotReady "No suitable ALVR client is installed"), mgr, trace⟩
  | (some processName, trace) =>
    let trace := trace ++ [.getProcessId deviceSerial processName]
    match env.getProcessId deviceSerial processName with
    | .error e => ⟨.error e, mgr, trace⟩
    | .ok none =>
      if clientAutolaunch && mgr.postAutolaunchDelay.isNone then
        if now - initialAutolaunchDelay < preAutolaunchDelaySecs then
          ⟨.ok (.NotReady "Awaiting pre autolaunch delay"), mgr, trace⟩
        else
          let trace := trace ++ [.startApplication deviceSerial processName]
          match env.startApplication deviceSerial processName with
          | .error e => ⟨.error e, mgr, trace⟩
          | .ok _ =>
            ⟨.ok (.NotReady "Starting ALVR client"),
              { mgr with postAutolaunchDelay := some now }, trace⟩
      else
        ⟨.ok (.NotReady "ALVR client is not running"), mgr, trace⟩
    | .ok (some _) =>
      let trace := trace ++ [.isActivityResumed deviceSerial processName]
      match env.isActivityResumed deviceSerial processName with
      | .error e => ⟨.error e, mgr, trace⟩
      | .ok false => ⟨.ok (.NotReady "ALVR client is paused"), mgr, trace⟩
      | .ok true =>
        match mgr.postAutolaunchDelay with
        | some t =>
          if now - t < postAutolaunchDelaySecs then
            ⟨.ok (.NotReady "Awaiting post autolaunch delay"), mgr, trace⟩
          else
            ⟨.ok .Ready, { mgr with postAutolaunchDelay := none }, trace⟩
        | none => ⟨.ok .Ready, mgr, trace⟩

/-- Lines 69-181 of `setup`: everything after a wired device has been selected
and the initial-wait timestamp resolved — port reconciliation, optional
auto-install, then the process phase. -/
def setupAfterDevice (env : Env) (fsys : Fsys) (isStable : Bool) (now : Nat)
    (controlPort streamPort : Nat) (clientType : ClientFlavor) (clientAutolaunch : Bool)
    (staticResourcesDir : String)
    (clientAutoinstallPath : Option WiredClientAutoInstallConfig)
    (deviceSerial : String) (initialAutolaunchDelay : Nat) (mgr : ManagerState) : Outcome :=
  let trace := [BridgeOp.listDevices, BridgeOp.listForwardedPorts deviceSerial]
  match env.listForwardedPorts deviceSerial with
  | .error e => ⟨.error e, mgr, trace⟩
  | .ok forwardedPorts =>
    match forwardLoop env deviceSerial
        (missingPorts controlPort streamPort forwardedPorts) trace with
    | (.error e, trace) => ⟨.error e, mgr, trace⟩
    | (.ok _, trace) =>
      let applicationIds := get_application_ids isStable clientType
      match autoInstallStep env fsys deviceSerial applicationIds staticResourcesDir
          clientAutoinstallPath trace with
      | (.error e, trace) => ⟨.error e, mgr, trace⟩
      | (.ok _, trace) =>
        processPhase env deviceSerial applicationIds clientAutolaunch now
          initialAutolaunchDelay mgr trace

/-- `WiredConnection::setup` (lines 39-182). -/
def setup (env : Env) (fsys : Fsys) (isStable : Bool) (now : Nat)
    (controlPort streamPort : Nat) (clientType : ClientFlavor) (clientAutolaunch : Bool)
    (staticResourcesDir : String)
    (clientAutoinstallPath : Option WiredClientAutoInstallConfig)
    (mgr : ManagerState) : Outcome :=
  match env.listDevices with
  | .error e => ⟨.error e, mgr, [.listDevices]⟩
  | .ok devices =>
    match (devices.filterMap AdbDevice.serial).find? (fun s => !strStartsWith s "127.0.0.1") with
    | none =>
      ⟨.ok (.NotReady "No wired devices found"),
        { initialAutolaunchDelay := none, postAutolaunchDelay := none }, [.listDevices]⟩
    | some deviceSerial =>
      match mgr.initialAutolaunchDelay with
      | some t =>
        setupAfterDevice env fsys isStable now controlPort streamPort clientType
          clientAutolaunch staticResourcesDir clientAutoinstallPath deviceSerial t mgr
      | none =>
        setupAfterDevice env fsys isStable now controlPort streamPort clientType
          clientAutolaunch staticResourcesDir clientAutoinstallPath deviceSerial now
          { mgr with initialAutolaunchDelay := some now }

/-! Classification predicates over bridge operations. -/

/-- True exactly on port-forward requests. -/
def isForwardOp : BridgeOp → Bool
  | .forwardPort _ _ => true
  | _ => false

/-- True exactly on forward-removal requests (never issued by the code). -/
def isRemoveForwardOp : BridgeOp → Bool
  | .removeForward _ _ => true
  | _ => false

/-- True exactly on start-application requests. -/
def isStartApplicationOp : BridgeOp → Bool
  | .startApplication _ _ => true
  | _ => false

/-- True exactly on package-install requests. -/
def isInstallOp : BridgeOp → Bool
  | .installPackage _ _ => true
  | _ => false

/-- True exactly on package-uninstall requests. -/
def isUninstallOp : BridgeOp → Bool
  | .uninstallPackage _ _ => true
  | _ => false

/-- True exactly on permission-grant requests. -/
def isGrantOp : BridgeOp → Bool
  | .grantPermission _ _ _ => true
  | _ => false

/-- True on the operations that change device-side state: forward or remove a
port, install or uninstall a package, grant a permission, start the app. -/
def isDeviceMutatingOp (op : BridgeOp) : Bool :=
  isForwardOp op || isRemoveForwardOp op || isInstallOp op || isUninstallOp op ||
    isGrantOp op || isStartApplicationOp op

/-- True on the operations the auto-install step can issue. -/
def isAutoInstallOp : BridgeOp → Bool
  | .getPackageSha1 _ _ => true
  | .uninstallPackage _ _ => true
  | .installPackage _ _ => true
  | .grantPermission _ _ _ => true
  | _ => false

/-- True on installed-package probes. -/
def isPkgProbeOp : BridgeOp → Bool
  | .isPackageInstalled _ _ => true
  | _ => false

/-- True on the operations the process phase can issue. -/
def isProcessPhaseOp : BridgeOp → Bool
  | .isPackageInstalled _ _ => true
  | .getProcessId _ _ => true
  | .startApplication _ _ => true
  | .isActivityResumed _ _ => true
  | _ => false

/-! Concrete environments and filesystem views used by witnesses and
counterexamples. -/

/-- Filesystem with no auto-install source file. -/
def fsysEmpty : Fsys := { pathExists := fun _ => false, fileSha1 := fun _ => .error "io" }

/-- Bridge with only loopback devices. -/
def envLoopback : Env := {
  listDevices := .ok [⟨some "127.0.0.1:5555"⟩, ⟨none⟩],
  listForwardedPorts := fun _ => .ok [],
  forwardPort := fun _ _ => .ok (),
  getPackageSha1 := fun _ _ => .ok none,
  installPackage := fun _ _ => .ok (),
  uninstallPackage := fun _ _ => .ok (),
  grantPermission := fun _ _ _ => .ok (),
  isPackageInstalled := fun _ _ => .ok false,
  getProcessId := fun _ _ => .ok none,
  isActivityResumed := fun _ _ => .ok false,
  startApplication := fun _ _ => .ok () }

/-- Bridge with no devices at all. -/
def envNoDevices : Env := { envLoopback with listDevices := .ok [] }

/-- Bridge with one wired device, both ports already forwarded, the stable
store package installed, its process not running; a launch succeeds. -/
def envLaunch : Env := {
  listDevices := .ok [⟨some "SER"⟩],
  listForwardedPorts := fun _ => .ok [9943, 9944],
  forwardPort := fun _ _ => .ok (),
  getPackageSha1 := fun _ _ => .ok none,
  installPackage := fun _ _ => .ok (),
  uninstallPackage := fun _ _ => .ok (),
  grantPermission := fun _ _ _ => .ok (),
  isPackageInstalled := fun _ pkg => .ok (pkg == PACKAGE_NAME_STORE),
  getProcessId := fun _ _ => .ok none,
  isActivityResumed := fun _ _ => .ok false,
  startApplication := fun _ _ => .ok () }

/-- Bridge as `envLaunch` but with the client process running and resumed. -/
def envReady : Env := { envLaunch with
  getProcessId := fun _ _ => .ok (some 1234),
  isActivityResumed := fun _ _ => .ok true }

/-- Bridge where every installed-package probe fails at the bridge level. -/
def envProbeFail : Env := { envLaunch with
  isPackageInstalled := fun _ _ => .error "bridge failure" }

/-- Bridge where listing forwarded ports fails at the bridge level. -/
def envPortsFail : Env := { envLaunch with
  listForwardedPorts := fun _ => .error "bridge failure" }

/-- True exactly on `Except.error`. -/
def exceptIsErr {e a : Type} : Except e a → Bool
  | .error _ => true
  | .ok _ => false

/-- Whether the environment answers the given bridge operation with a
bridge-level failure. -/
def opIsError (env : Env) : BridgeOp → Bool
  | .listDevices => exceptIsErr env.listDevices
  | .listForwardedPorts s => exceptIsErr (env.listForwardedPorts s)
  | .forwardPort s p => exceptIsErr (env.forwardPort s p)
  | .removeForward _ _ => false
  | .getPackageSha1 s a => exceptIsErr (env.getPackageSha1 s a)
  | .installPackage s p => exceptIsErr (env.installPackage s p)
  | .uninstallPackage s a => exceptIsErr (env.uninstallPackage s a)
  | .grantPermission s a p => exceptIsErr (env.grantPermission s a p)
  | .isPackageInstalled s a => exceptIsErr (env.isPackageInstalled s a)
  | .getProcessId s a => exceptIsErr (env.getProcessId s a)
  | .isActivityResumed s a => exceptIsErr (env.isActivityResumed s a)
  | .startApplication s a => exceptIsErr (env.startApplication s a)


/-! Frame lemmas: each phase only appends to the incoming trace, and what it
appends (and its result) does not depend on the incoming trace. -/

theorem grantLoop_frame (env : Env) (s a : String) (perms : List String) (tr : List BridgeOp) :
    grantLoop env s a perms tr
      = ((grantLoop env s a perms []).1, tr ++ (grantLoop env s a perms []).2) := by
  induction perms generalizing tr with
  | nil => simp [grantLoop]
  | cons perm rest ih =>
    simp only [grantLoop]
    cases h : env.grantPermission s a perm with
    | ok _ => rw [ih, ih ([] ++ [BridgeOp.grantPermission s a perm])]; simp
    | error e => simp

theorem forwardLoop_frame (env : Env) (s : String) (ps : List Nat) (tr : List BridgeOp) :
    forwardLoop env s ps tr
      = ((forwardLoop env s ps []).1, tr ++ (forwardLoop env s ps []).2) := by
  induction ps generalizing tr with
  | nil => simp [forwardLoop]
  | cons p rest ih =>
    simp only [forwardLoop]
    cases h : env.forwardPort s p with
    | ok _ => rw [ih, ih ([] ++ [BridgeOp.forwardPort s p])]; simp
    | error e => simp

theorem installAndGrant_frame (env : Env) (s a p : String) (perms : List String)
    (tr : List BridgeOp) :
    installAndGrant env s a p perms tr
      = ((installAndGrant env s a p perms []).1, tr ++ (installAndGrant env s a p perms []).2) := by
  unfold installAndGrant
  cases h : env.installPackage s p with
  | ok _ =>
    rw [grantLoop_frame env s a perms (tr ++ [BridgeOp.installPackage s p]),
      grantLoop_frame env s a perms ([] ++ [BridgeOp.installPackage s p])]
    simp
  | error e => simp

theorem get_process_name_frame (env : Env) (s : String) (ids : List String)
    (tr : List BridgeOp) :
    get_process_name env s ids tr
      = ((get_process_name env s ids []).1, tr ++ (get_process_name env s ids []).2) := by
  induction ids generalizing tr with
  | nil => simp [get_process_name]
  | cons appId rest ih =>
    simp only [get_process_name]
    cases h : env.isPackageInstalled s appId with
    | ok b =>
      cases b with
      | true => simp
      | false => rw [ih, ih ([] ++ [BridgeOp.isPackageInstalled s appId])]; simp
    | error e => rw [ih, ih ([] ++ [BridgeOp.isPackageInstalled s appId])]; simp

theorem autoInstallStep_frame (env : Env) (fsys : Fsys) (s : String) (ids : List String)
    (dir : String) (cfg : Option WiredClientAutoInstallConfig) (tr : List BridgeOp) :
    autoInstallStep env fsys s ids dir cfg tr
      = ((autoInstallStep env fsys s ids dir cfg []).1,
          tr ++ (autoInstallStep env fsys s ids dir cfg []).2) := by
  cases cfg with
  | none => simp [autoInstallStep]
  | some cfg =>
    simp only [autoInstallStep]
    cases hex : fsys.pathExists (resolveAutoInstallPath dir cfg.clientPackageLocation) with
    | false => simp
    | true =>
      simp only [if_pos rfl, if_true]
      cases hh : ids.head? with
      | none => simp
      | some appId =>
        simp only
        cases hs : env.getPackageSha1 s appId with
        | error e => simp
        | ok osha =>
          cases osha with
          | none =>
            simp only
            rw [installAndGrant_frame env s appId _ cfg.permissions (tr ++ _),
              installAndGrant_frame env s appId _ cfg.permissions ([] ++ _)]
            simp
          | some installedSha1 =>
            simp only
            cases hf : fsys.fileSha1 (resolveAutoInstallPath dir cfg.clientPackageLocation) with
            | error e => simp
            | ok hashStr =>
              simp only
              cases heq : eqIgnoreAsciiCase installedSha1 hashStr with
              | true => simp
              | false =>
                simp only [Bool.not_false, if_true]
                cases hu : env.uninstallPackage s appId with
                | error e => simp
                | ok _ =>
                  rw [installAndGrant_frame env s appId _ cfg.permissions ((tr ++ _) ++ _),
                    installAndGrant_frame env s appId _ cfg.permissions (([] ++ _) ++ _)]
                  simp

theorem processPhase_frame (env : Env) (s : String) (ids : List String) (auto : Bool)
    (now init : Nat) (mgr : ManagerState) (tr : List BridgeOp) :
    processPhase env s ids auto now init mgr tr
      = ⟨(processPhase env s ids auto now init mgr []).result,
          (processPhase env s ids auto now init mgr []).mgr,
          tr ++ (processPhase env s ids auto now init mgr []).trace⟩ := by
  simp only [processPhase]
  rw [get_process_name_frame env s ids tr, get_process_name_frame env s ids []]
  cases hg : (get_process_name env s ids []).1 with
  | none => simp
  | some processName =>
    simp only
    cases hp : env.getProcessId s processName with
    | error e => simp
    | ok opid =>
      cases opid with
      | none =>
        simp only
        cases hc : auto && mgr.postAutolaunchDelay.isNone with
        | false => simp
        | true =>
          simp only [if_true]
          by_cases ht : now - init < preAutolaunchDelaySecs
          · simp [ht]
          · simp only [if_neg ht]
            cases hs : env.startApplication s processName with
            | error e => simp
            | ok _ => simp
      | some pid =>
        simp only
        cases hr : env.isActivityResumed s processName with
        | error e => simp
        | ok b =>
          cases b with
          | false => simp
          | true =>
            simp only
            cases hpost : mgr.postAutolaunchDelay with
            | none => simp
            | some t =>
              by_cases ht : now - t < postAutolaunchDelaySecs
              · simp [ht]
              · simp [ht]

/-! Success-path lemmas. -/

/-- Grant loop with every grant succeeding: one grant request per permission,
in order. -/
theorem grantLoop_ok (env : Env) (s a : String) (perms : List String) (tr : List BridgeOp)
    (h : ∀ perm ∈ perms, env.grantPermission s a perm = .ok ()) :
    grantLoop env s a perms tr
      = (.ok (), tr ++ perms.map (BridgeOp.grantPermission s a ·)) := by
  induction perms generalizing tr with
  | nil => simp [grantLoop]
  | cons perm rest ih =>
    have hp := h perm (List.mem_cons_self _ _)
    simp only [grantLoop, hp]
    rw [ih _ (fun q hq => h q (List.mem_cons_of_mem _ hq))]
    simp

/-- Forward loop with every forward succeeding: one forward request per port,
in order. -/
theorem forwardLoop_ok (env : Env) (s : String) (ps : List Nat) (tr : List BridgeOp)
    (h : ∀ p ∈ ps, env.forwardPort s p = .ok ()) :
    forwardLoop env s ps tr = (.ok (), tr ++ ps.map (BridgeOp.forwardPort s)) := by
  induction ps generalizing tr with
  | nil => simp [forwardLoop]
  | cons p rest ih =>
    have hp := h p (List.mem_cons_self _ _)
    simp only [forwardLoop, hp]
    rw [ih _ (fun q hq => h q (List.mem_cons_of_mem _ hq))]
    simp

/-- Candidate probing when no candidate answers `ok true`: every candidate is
probed, none selected.  This covers both `ok false` and bridge errors, which
`get_process_name` swallows (`is_ok_and`). -/
theorem get_process_name_none (env : Env) (s : String) (ids : List String)
    (tr : List BridgeOp) (h : ∀ appId ∈ ids, env.isPackageInstalled s appId ≠ .ok true) :
    get_process_name env s ids tr = (none, tr ++ ids.map (BridgeOp.isPackageInstalled s)) := by
  induction ids generalizing tr with
  | nil => simp [get_process_name]
  | cons appId rest ih =>
    have hp := h appId (List.mem_cons_self _ _)
    simp only [get_process_name]
    cases hq : env.isPackageInstalled s appId with
    | ok b =>
      cases b with
      | true => exact absurd hq hp
      | false => rw [ih _ (fun q hq2 => h q (List.mem_cons_of_mem _ hq2))]; simp
    | error e => rw [ih _ (fun q hq2 => h q (List.mem_cons_of_mem _ hq2))]; simp

/-! Classification lemmas: which operations each phase can append. -/

theorem forwardLoop_ops (env : Env) (s : String) (ps : List Nat) (tr : List BridgeOp) :
    ∀ op ∈ (forwardLoop env s ps tr).2, op ∈ tr ∨ isForwardOp op = true := by
  induction ps generalizing tr with
  | nil => intro op hop; exact Or.inl (by simpa [forwardLoop] using hop)
  | cons p rest ih =>
    intro op hop
    simp only [forwardLoop] at hop
    cases hq : env.forwardPort s p with
    | ok _ =>
      rw [hq] at hop
      rcases ih (tr ++ [BridgeOp.forwardPort s p]) op hop with hmem | hfw
      · rcases List.mem_append.mp hmem with h1 | h2
        · exact Or.inl h1
        · simp only [List.mem_singleton] at h2
          subst h2; exact Or.inr rfl
      · exact Or.inr hfw
    | error e =>
      rw [hq] at hop
      simp only at hop
      rcases List.mem_append.mp hop with h1 | h2
      · exact Or.inl h1
      · simp only [List.mem_singleton] at h2
        subst h2; exact Or.inr rfl

theorem grantLoop_ops (env : Env) (s a : String) (perms : List String) (tr : List BridgeOp) :
    ∀ op ∈ (grantLoop env s a perms tr).2, op ∈ tr ∨ isGrantOp op = true := by
  induction perms generalizing tr with
  | nil => intro op hop; exact Or.inl (by simpa [grantLoop] using hop)
  | cons perm rest ih =>
    intro op hop
    simp only [grantLoop] at hop
    cases hq : env.grantPermission s a perm with
    | ok _ =>
      rw [hq] at hop
      rcases ih (tr ++ [BridgeOp.grantPermission s a perm]) op hop with hmem | hg
      · rcases List.mem_append.mp hmem with h1 | h2
        · exact Or.inl h1
        · simp only [List.mem_singleton] at h2
          subst h2; exact Or.inr rfl
      · exact Or.inr hg
    | error e =>
      rw [hq] at hop
      simp only at hop
      rcases List.mem_append.mp hop with h1 | h2
      · exact Or.inl h1
      · simp only [List.mem_singleton] at h2
        subst h2; exact Or.inr rfl

theorem installAndGrant_ops (env : Env) (s a p : String) (perms : List String)
    (tr : List BridgeOp) :
    ∀ op ∈ (installAndGrant env s a p perms tr).2,
      op ∈ tr ∨ isInstallOp op = true ∨ isGrantOp op = true := by
  intro op hop
  simp only [installAndGrant] at hop
  cases hq : env.installPackage s p with
  | ok _ =>
    rw [hq] at hop
    rcases grantLoop_ops env s a perms (tr ++ [BridgeOp.installPackage s p]) op hop with hmem | hg
    · rcases List.mem_append.mp hmem with h1 | h2
      · exact Or.inl h1
      · simp only [List.mem_singleton] at h2
        subst h2; exact Or.inr (Or.inl rfl)
    · exact Or.inr (Or.inr hg)
  | error e =>
    rw [hq] at hop
    simp only at hop
    rcases List.mem_append.mp hop with h1 | h2
    · exact Or.inl h1
    · simp only [List.mem_singleton] at h2
      subst h2; exact Or.inr (Or.inl rfl)

theorem autoInstallStep_ops (env : Env) (fsys : Fsys) (s : String) (ids : List String)
    (dir : String) (cfg : Option WiredClientAutoInstallConfig) (tr : List BridgeOp) :
    ∀ op ∈ (autoInstallStep env fsys s ids dir cfg tr).2,
      op ∈ tr ∨ isAutoInstallOp op = true := by
  intro op hop
  cases cfg with
  | none => exact Or.inl (by simpa [autoInstallStep] using hop)
  | some cfg =>
    simp only [autoInstallStep] at hop
    cases hex : fsys.pathExists (resolveAutoInstallPath dir cfg.clientPackageLocation) with
    | false => rw [hex] at hop; exact Or.inl (by simpa using hop)
    | true =>
      rw [hex] at hop
      simp only [if_true] at hop
      cases hh : ids.head? with
      | none => rw [hh] at hop; exact Or.inl (by simpa using hop)
      | some appId =>
        rw [hh] at hop
        simp only at hop
        have singl : ∀ q ∈ tr ++ [BridgeOp.getPackageSha1 s appId],
            q ∈ tr ∨ isAutoInstallOp q = true := by
          intro q hq
          rcases List.mem_append.mp hq with h1 | h2
          · exact Or.inl h1
          · simp only [List.mem_singleton] at h2
            subst h2; exact Or.inr rfl
        cases hs : env.getPackageSha1 s appId with
        | error e => rw [hs] at hop; exact singl op (by simpa using hop)
        | ok osha =>
          rw [hs] at hop
          cases osha with
          | none =>
            simp only at hop
            rcases installAndGrant_ops env s appId _ cfg.permissions _ op hop with hmem | hrest
            · exact singl op hmem
            · rcases hrest with hi | hg
              · exact Or.inr (by cases op <;> simp_all [isInstallOp, isAutoInstallOp])
              · exact Or.inr (by cases op <;> simp_all [isGrantOp, isAutoInstallOp])
          | some installedSha1 =>
            simp only at hop
            cases hf : fsys.fileSha1 (resolveAutoInstallPath dir cfg.clientPackageLocation) with
            | error e => rw [hf] at hop; exact singl op (by simpa using hop)
            | ok hashStr =>
              rw [hf] at hop
              simp only at hop
              cases heq : eqIgnoreAsciiCase installedSha1 hashStr with
              | true => rw [heq] at hop; exact singl op (by simpa using hop)
              | false =>
                rw [heq] at hop
                simp only [Bool.not_false, if_true] at hop
                have singl2 : ∀ q ∈ (tr ++ [BridgeOp.getPackageSha1 s appId]) ++
                    [BridgeOp.uninstallPackage s appId],
                    q ∈ tr ∨ isAutoInstallOp q = true := by
                  intro q hq
                  rcases List.mem_append.mp hq with h1 | h2
                  · exact singl q h1
                  · simp only [List.mem_singleton] at h2
                    subst h2; exact Or.inr rfl
                cases hu : env.uninstallPackage s appId with
                | error e => rw [hu] at hop; exact singl2 op (by simpa using hop)
                | ok _ =>
                  rw [hu] at hop
                  rcases installAndGrant_ops env s appId _ cfg.permissions _ op hop with hmem | hrest
                  · exact singl2 op hmem
                  · rcases hrest with hi | hg
                    · exact Or.inr (by cases op <;> simp_all [isInstallOp, isAutoInstallOp])
                    · exact Or.inr (by cases op <;> simp_all [isGrantOp, isAutoInstallOp])

theorem get_process_name_ops (env : Env) (s : String) (ids : List String)
    (tr : List BridgeOp) :
    ∀ op ∈ (get_process_name env s ids tr).2, op ∈ tr ∨ isPkgProbeOp op = true := by
  induction ids generalizing tr with
  | nil => intro op hop; exact Or.inl (by simpa [get_process_name] using hop)
  | cons appId rest ih =>
    intro op hop
    simp only [get_process_name] at hop
    have singl : ∀ q ∈ tr ++ [BridgeOp.isPackageInstalled s appId],
        q ∈ tr ∨ isPkgProbeOp q = true := by
      intro q hq
      rcases List.mem_append.mp hq with h1 | h2
      · exact Or.inl h1
      · simp only [List.mem_singleton] at h2
        subst h2; exact Or.inr rfl
    cases hq : env.isPackageInstalled s appId with
    | ok b =>
      rw [hq] at hop
      cases b with
      | true => exact singl op (by simpa using hop)
      | false =>
        simp only at hop
        rcases ih _ op hop with hmem | hprobe
        · exact singl op hmem
        · exact Or.inr hprobe
    | error e =>
      rw [hq] at hop
      simp only at hop
      rcases ih _ op hop with hmem | hprobe
      · exact singl op hmem
      · exact Or.inr hprobe

theorem processPhase_ops (env : Env) (s : String) (ids : List String) (auto : Bool)
    (now init : Nat) (mgr : ManagerState) (tr : List BridgeOp) :
    ∀ op ∈ (processPhase env s ids auto now init mgr tr).trace,
      op ∈ tr ∨ isProcessPhaseOp op = true := by
  intro op hop
  simp only [processPhase] at hop
  rw [get_process_name_frame env s ids tr] at hop
  have hbase : ∀ q ∈ tr ++ (get_process_name env s ids []).2,
      q ∈ tr ∨ isProcessPhaseOp q = true := by
    intro q hq
    rcases List.mem_append.mp hq with h1 | h2
    · exact Or.inl h1
    · rcases get_process_name_ops env s ids [] q h2 with hmem | hprobe
      · simp at hmem
      · exact Or.inr (by cases q <;> simp_all [isPkgProbeOp, isProcessPhaseOp])
  cases hg : (get_process_name env s ids []).1 with
  | none => simp only [hg] at hop; exact hbase op hop
  | some processName =>
    simp only [hg] at hop
    set base := tr ++ (get_process_name env s ids []).2 with hbdef
    have h2 : ∀ q ∈ base ++ [BridgeOp.getProcessId s processName],
        q ∈ tr ∨ isProcessPhaseOp q = true := by
      intro q hq
      rcases List.mem_append.mp hq with h1 | h2
      · exact hbase q h1
      · simp only [List.mem_singleton] at h2
        subst h2; exact Or.inr rfl
    cases hp : env.getProcessId s processName with
    | error e => rw [hp] at hop; exact h2 op (by simpa using hop)
    | ok opid =>
      rw [hp] at hop
      cases opid with
      | none =>
        simp only at hop
        cases hc : auto && mgr.postAutolaunchDelay.isNone with
        | false => rw [hc] at hop; exact h2 op (by simpa using hop)
        | true =>
          rw [hc] at hop
          simp only [if_true] at hop
          by_cases ht : now - init < preAutolaunchDelaySecs
          · rw [if_pos ht] at hop; exact h2 op (by simpa using hop)
          · rw [if_neg ht] at hop
            have h3 : ∀ q ∈ (base ++ [BridgeOp.getProcessId s processName]) ++
                [BridgeOp.startApplication s processName],
                q ∈ tr ∨ isProcessPhaseOp q = true := by
              intro q hq
              rcases List.mem_append.mp hq with h1 | hq2
              · exact h2 q h1
              · simp only [List.mem_singleton] at hq2
                subst hq2; exact Or.inr rfl
            cases hs : env.startApplication s processName with
            | error e => rw [hs] at hop; exact h3 op (by simpa using hop)
            | ok _ => rw [hs] at hop; exact h3 op (by simpa using hop)
      | some pid =>
        simp only at hop
        have h3 : ∀ q ∈ (base ++ [BridgeOp.getProcessId s processName]) ++
            [BridgeOp.isActivityResumed s processName],
            q ∈ tr ∨ isProcessPhaseOp q = true := by
          intro q hq
          rcases List.mem_append.mp hq with h1 | hq2
          · exact h2 q h1
          · simp only [List.mem_singleton] at hq2
            subst hq2; exact Or.inr rfl
        cases hr : env.isActivityResumed s processName with
        | error e => rw [hr] at hop; exact h3 op (by simpa using hop)
        | ok b =>
          rw [hr] at hop
          cases b with
          | false => exact h3 op (by simpa using hop)
          | true =>
            simp only at hop
            cases hpost : mgr.postAutolaunchDelay with
            | none => rw [hpost] at hop; exact h3 op (by simpa using hop)
            | some t =>
              rw [hpost] at hop
              simp only at hop
              by_cases ht : now - t < postAutolaunchDelaySecs
              · rw [if_pos ht] at hop; exact h3 op (by simpa using hop)
              · rw [if_neg ht] at hop; exact h3 op (by simpa using hop)

/-! Transition lemmas for the post-autolaunch timer. -/

theorem processPhase_initial (env : Env) (s : String) (ids : List String) (auto : Bool)
    (now init : Nat) (mgr : ManagerState) (tr : List BridgeOp) :
    (processPhase env s ids auto now init mgr tr).mgr.initialAutolaunchDelay
      = mgr.initialAutolaunchDelay := by
  simp only [processPhase]
  rw [get_process_name_frame env s ids tr]
  cases hg : (get_process_name env s ids []).1 with
  | none => simp
  | some processName =>
    simp only
    cases hp : env.getProcessId s processName with
    | error e => simp
    | ok opid =>
      cases opid with
      | none =>
        simp only
        cases hc : auto && mgr.postAutolaunchDelay.isNone with
        | false => simp
        | true =>
          simp only [if_true]
          by_cases ht : now - init < preAutolaunchDelaySecs
          · simp [ht]
          · simp only [if_neg ht]
            cases hs : env.startApplication s processName with
            | error e => simp
            | ok _ => simp
      | some pid =>
        simp only
        cases hr : env.isActivityResumed s processName with
        | error e => simp
        | ok b =>
          cases b with
          | false => simp
          | true =>
            simp only
            cases hpost : mgr.postAutolaunchDelay with
            | none => simp
            | some t =>
              by_cases ht : now - t < postAutolaunchDelaySecs
              · simp [ht]
              · simp [ht]

theorem processPhase_post (env : Env) (s : String) (ids : List String) (auto : Bool)
    (now init : Nat) (mgr : ManagerState) (tr : List BridgeOp) :
    (processPhase env s ids auto now init mgr tr).mgr.postAutolaunchDelay
        = mgr.postAutolaunchDelay
      ∨ (mgr.postAutolaunchDelay = none
          ∧ (processPhase env s ids auto now init mgr tr).mgr.postAutolaunchDelay = some now
          ∧ (processPhase env s ids auto now init mgr tr).result
              = .ok (.NotReady "Starting ALVR client")
          ∧ (processPhase env s ids auto now init mgr tr).trace.filter isStartApplicationOp ≠ [])
      ∨ (∃ t, mgr.postAutolaunchDelay = some t
          ∧ postAutolaunchDelaySecs ≤ now - t
          ∧ (processPhase env s ids auto now init mgr tr).mgr.postAutolaunchDelay = none
          ∧ (processPhase env s ids auto now init mgr tr).result = .ok .Ready) := by
  simp only [processPhase]
  rw [get_process_name_frame env s ids tr]
  cases hg : (get_process_name env s ids []).1 with
  | none => simp
  | some processName =>
    simp only
    cases hp : env.getProcessId s processName with
    | error e => simp
    | ok opid =>
      cases opid with
      | none =>
        simp only
        cases hc : auto && mgr.postAutolaunchDelay.isNone with
        | false => simp
        | true =>
          simp only [if_true]
          by_cases ht : now - init < preAutolaunchDelaySecs
          · simp [ht]
          · simp only [if_neg ht]
            cases hs : env.startApplication s processName with
            | error e => simp
            | ok _ =>
              refine Or.inr (Or.inl ⟨?_, by simp, by simp, ?_⟩)
              · simp only [Bool.and_eq_true] at hc
                exact Option.isNone_iff_eq_none.mp hc.2
              · simp [List.filter_append, isStartApplicationOp]
      | some pid =>
        simp only
        cases hr : env.isActivityResumed s processName with
        | error e => simp
        | ok b =>
          cases b with
          | false => simp
          | true =>
            simp only
            cases hpost : mgr.postAutolaunchDelay with
            | none => simp [hpost]
            | some t =>
              by_cases ht : now - t < postAutolaunchDelaySecs
              · simp [ht, hpost]
              · exact Or.inr (Or.inr ⟨t, by simp [hpost], Nat.le_of_not_lt ht, by simp [ht],
                  by simp [ht]⟩)

/-! Kind-exclusion helpers. -/

theorem isAutoInstallOp_not (op : BridgeOp) (h : isAutoInstallOp op = true) :
    isForwardOp op = false ∧ isRemoveForwardOp op = false
      ∧ isStartApplicationOp op = false := by
  cases op <;> simp_all [isAutoInstallOp, isForwardOp, isRemoveForwardOp, isStartApplicationOp]

theorem isProcessPhaseOp_not (op : BridgeOp) (h : isProcessPhaseOp op = true) :
    isForwardOp op = false ∧ isRemoveForwardOp op = false ∧ isInstallOp op = false
      ∧ isUninstallOp op = false ∧ isGrantOp op = false := by
  cases op <;> simp_all [isProcessPhaseOp, isForwardOp, isRemoveForwardOp, isInstallOp,
    isUninstallOp, isGrantOp]

theorem isPkgProbeOp_not (op : BridgeOp) (h : isPkgProbeOp op = true) :
    isDeviceMutatingOp op = false := by
  cases op <;> simp_all [isPkgProbeOp, isDeviceMutatingOp, isForwardOp, isRemoveForwardOp,
    isInstallOp, isUninstallOp, isGrantOp, isStartApplicationOp]

theorem filter_forward_map (s : String) (ps : List Nat) :
    (ps.map (BridgeOp.forwardPort s)).filter isForwardOp = ps.map (BridgeOp.forwardPort s) := by
  induction ps with
  | nil => simp
  | cons p rest ih => simp [isForwardOp, ih]

/-- Forward requests issued by one post-device pass: exactly one per missing
required port (when forwarding succeeds), and no forward-removal request is
ever issued. -/
theorem setupAfterDevice_forward_filter (env : Env) (fsys : Fsys) (isStable : Bool) (now : Nat)
    (controlPort streamPort : Nat) (clientType : ClientFlavor) (clientAutolaunch : Bool)
    (staticResourcesDir : String) (cfg : Option WiredClientAutoInstallConfig)
    (serial : String) (init : Nat) (mgr : ManagerState) (fps : List Nat)
    (hfps : env.listForwardedPorts serial = .ok fps)
    (hfw : ∀ p ∈ missingPorts controlPort streamPort fps,
        env.forwardPort serial p = .ok ()) :
    (setupAfterDevice env fsys isStable now controlPort streamPort clientType clientAutolaunch
        staticResourcesDir cfg serial init mgr).trace.filter isForwardOp
      = (missingPorts controlPort streamPort fps).map (BridgeOp.forwardPort serial)
    ∧ ∀ op ∈ (setupAfterDevice env fsys isStable now controlPort streamPort clientType
        clientAutolaunch staticResourcesDir cfg serial init mgr).trace,
        isRemoveForwardOp op = false := by
  have hconc : ∀ op ∈ [BridgeOp.listDevices, BridgeOp.listForwardedPorts serial],
      isForwardOp op = false ∧ isRemoveForwardOp op = false := by
    intro op hop
    simp only [List.mem_cons, List.not_mem_nil, or_false] at hop
    rcases hop with rfl | rfl <;> simp [isForwardOp, isRemoveForwardOp]
  simp only [setupAfterDevice, hfps]
  rw [forwardLoop_ok env serial _ _ hfw]
  simp only
  set tr1 := [BridgeOp.listDevices, BridgeOp.listForwardedPorts serial]
      ++ (missingPorts controlPort streamPort fps).map (BridgeOp.forwardPort serial) with htr1
  have htr1ops : ∀ op ∈ tr1, isRemoveForwardOp op = false
      ∧ (isForwardOp op = true
          → op ∈ (missingPorts controlPort streamPort fps).map (BridgeOp.forwardPort serial)) := by
    intro op hop
    rw [htr1] at hop
    rcases List.mem_append.mp hop with h | h
    · exact ⟨(hconc op h).2, fun hf => absurd hf (by simp [(hconc op h).1])⟩
    · constructor
      · rcases List.mem_map.mp h with ⟨p, hp, rfl⟩
        simp [isRemoveForwardOp]
      · intro _; exact h

  have hfilter1 : tr1.filter isForwardOp
      = (missingPorts controlPort streamPort fps).map (BridgeOp.forwardPort serial) := by
    rw [htr1, List.filter_append, filter_forward_map]
    have : [BridgeOp.listDevices, BridgeOp.listForwardedPorts serial].filter isForwardOp
        = [] := by simp [isForwardOp]
    rw [this, List.nil_append]
  rw [autoInstallStep_frame]
  cases hr2 : (autoInstallStep env fsys serial (get_application_ids isStable clientType)
      staticResourcesDir cfg []).1 with
  | error e =>
    simp only
    have hai := autoInstallStep_ops env fsys serial (get_application_ids isStable clientType)
      staticResourcesDir cfg []
    constructor
    · rw [List.filter_append, hfilter1]
      have : ((autoInstallStep env fsys serial (get_application_ids isStable clientType)
          staticResourcesDir cfg []).2).filter isForwardOp = [] := by
        rw [List.filter_eq_nil_iff]
        intro op hop
        rcases hai op hop with h | h
        · simp at h
        · simp [(isAutoInstallOp_not op h).1]
      rw [this, List.append_nil]
    · intro op hop
      rcases List.mem_append.mp hop with h | h
      · exact (htr1ops op h).1
      · rcases hai op h with h2 | h2
        · simp at h2
        · exact (isAutoInstallOp_not op h2).2.1
  | ok u =>
    simp only
    rw [processPhase_frame]
    simp only
    have hai := autoInstallStep_ops env fsys serial (get_application_ids isStable clientType)
      staticResourcesDir cfg []
    have hpp := processPhase_ops env serial (get_application_ids isStable clientType)
      clientAutolaunch now init mgr []
    have haiFilter : ((autoInstallStep env fsys serial (get_application_ids isStable clientType)
        staticResourcesDir cfg []).2).filter isForwardOp = [] := by
      rw [List.filter_eq_nil_iff]
      intro op hop
      rcases hai op hop with h | h
      · simp at h
      · simp [(isAutoInstallOp_not op h).1]
    have hppFilter : ((processPhase env serial (get_application_ids isStable clientType)
        clientAutolaunch now init mgr []).trace).filter isForwardOp = [] := by
      rw [List.filter_eq_nil_iff]
      intro op hop
      rcases hpp op hop with h | h
      · simp at h
      · simp [(isProcessPhaseOp_not op h).1]
    constructor
    · rw [List.filter_append, List.filter_append, hfilter1, haiFilter, hppFilter]
      simp
    · intro op hop
      rcases List.mem_append.mp hop with h | h
      · rcases List.mem_append.mp h with h2 | h2
        · exact (htr1ops op h2).1
        · rcases hai op h2 with h3 | h3
          · simp at h3
          · exact (isAutoInstallOp_not op h3).2.1
      · rcases hpp op h with h3 | h3
        · simp at h3
        · exact (isProcessPhaseOp_not op h3).2.1

/-- Claim C4: for every device list in which each listed serial indicates a
loopback origin (or the list is empty), `setup` returns
`NotReady "No wired devices found"`, clears both episodic timers, and issues
no bridge operation beyond the device listing. -/
theorem C4_no_wired_devices (env : Env) (fsys : Fsys) (isStable : Bool) (now : Nat)
    (controlPort streamPort : Nat) (clientType : ClientFlavor) (clientAutolaunch : Bool)
    (staticResourcesDir : String) (cfg : Option WiredClientAutoInstallConfig)
    (mgr : ManagerState) (devices : List AdbDevice)
    (hdev : env.listDevices = .ok devices)
    (hloop : ∀ s ∈ devices.filterMap AdbDevice.serial, strStartsWith s "127.0.0.1" = true) :
    setup env fsys isStable now controlPort streamPort clientType clientAutolaunch
        staticResourcesDir cfg mgr
      = ⟨.ok (.NotReady "No wired devices found"),
          { initialAutolaunchDelay := none, postAutolaunchDelay := none },
          [BridgeOp.listDevices]⟩ := by
  have hfind : (devices.filterMap AdbDevice.serial).find?
      (fun s => !strStartsWith s "127.0.0.1") = none := by
    apply List.find?_eq_none.mpr
    intro s hs
    simp [hloop s hs]
  simp [setup, hdev, hfind]

/-- Witness for C4 at a concrete loopback-only device list. -/
theorem C4_no_wired_devices_witness :
    setup envLoopback fsysEmpty true 7 9943 9944 .Store true "/static" none ⟨some 1, some 2⟩
      = ⟨.ok (.NotReady "No wired devices found"),
          { initialAutolaunchDelay := none, postAutolaunchDelay := none },
          [BridgeOp.listDevices]⟩ :=
  C4_no_wired_devices envLoopback fsysEmpty true 7 9943 9944 .Store true "/static" none
    ⟨some 1, some 2⟩ [⟨some "127.0.0.1:5555"⟩, ⟨none⟩] (by decide) (by decide)

/-- Claim C8 counterexample: on a dev-channel build the default-flavor
candidate list is just the dev identifier and omits the store identifier
entirely, and on a stable build it omits the dev-channel identifier, so the
returned list does not consist of the store identifier together with the two
channel identifiers. -/
theorem C8_counterexample :
    get_application_ids false ClientFlavor.Store = [PACKAGE_NAME_GITHUB_DEV]
    ∧ PACKAGE_NAME_STORE ∉ get_application_ids false ClientFlavor.Store
    ∧ PACKAGE_NAME_GITHUB_DEV ∉ get_application_ids true ClientFlavor.Store := by
  decide

/-- Claim C8 as amended: `get_application_ids` is a pure total function whose
result is always non-empty; on a stable build the default flavors yield the
store and stable-channel identifiers with the flavor-matching one first, on a
dev build just the dev-channel identifier; the custom flavor puts the custom
identifier first followed by exactly the default (Store-flavor) fallback
list. -/
theorem C8_application_ids (isStable : Bool) (flavor : ClientFlavor) :
    get_application_ids isStable flavor ≠ []
    ∧ get_application_ids true ClientFlavor.Store
        = [PACKAGE_NAME_STORE, PACKAGE_NAME_GITHUB_STABLE]
    ∧ get_application_ids false ClientFlavor.Store = [PACKAGE_NAME_GITHUB_DEV]
    ∧ get_application_ids true ClientFlavor.Github
        = [PACKAGE_NAME_GITHUB_STABLE, PACKAGE_NAME_STORE]
    ∧ get_application_ids false ClientFlavor.Github = [PACKAGE_NAME_GITHUB_DEV]
    ∧ (∀ name : String,
        get_application_ids isStable (ClientFlavor.Custom name)
          = name :: get_application_ids isStable ClientFlavor.Store) := by
  refine ⟨?_, rfl, rfl, rfl, rfl, ?_⟩
  · cases flavor <;> cases isStable <;> simp [get_application_ids]
  · intro name; cases isStable <;> rfl

theorem setupAfterDevice_post (env : Env) (fsys : Fsys) (isStable : Bool) (now : Nat)
    (controlPort streamPort : Nat) (clientType : ClientFlavor) (clientAutolaunch : Bool)
    (staticResourcesDir : String) (cfg : Option WiredClientAutoInstallConfig)
    (serial : String) (init : Nat) (mgr : ManagerState) :
    (setupAfterDevice env fsys isStable now controlPort streamPort clientType clientAutolaunch
        staticResourcesDir cfg serial init mgr).mgr.postAutolaunchDelay
      = mgr.postAutolaunchDelay
    ∨ (mgr.postAutolaunchDelay = none
        ∧ (setupAfterDevice env fsys isStable now controlPort streamPort clientType
            clientAutolaunch staticResourcesDir cfg serial init mgr).mgr.postAutolaunchDelay
          = some now
        ∧ (setupAfterDevice env fsys isStable now controlPort streamPort clientType
            clientAutolaunch staticResourcesDir cfg serial init mgr).result
          = .ok (.NotReady "Starting ALVR client")
        ∧ (setupAfterDevice env fsys isStable now controlPort streamPort clientType
            clientAutolaunch staticResourcesDir cfg serial init mgr).trace.filter
              isStartApplicationOp ≠ [])
    ∨ (∃ t, mgr.postAutolaunchDelay = some t
        ∧ postAutolaunchDelaySecs ≤ now - t
        ∧ (setupAfterDevice env fsys isStable now controlPort streamPort clientType
            clientAutolaunch staticResourcesDir cfg serial init mgr).mgr.postAutolaunchDelay
          = none
        ∧ (setupAfterDevice env fsys isStable now controlPort streamPort clientType
            clientAutolaunch staticResourcesDir cfg serial init mgr).result = .ok .Ready) := by
  simp only [setupAfterDevice]
  split
  · simp
  · split
    · simp
    · split
      · simp
      · apply processPhase_post

theorem setup_eq_afterDevice (env : Env) (fsys : Fsys) (isStable : Bool) (now : Nat)
    (controlPort streamPort : Nat) (clientType : ClientFlavor) (clientAutolaunch : Bool)
    (staticResourcesDir : String) (cfg : Option WiredClientAutoInstallConfig)
    (mgr : ManagerState) (devices : List AdbDevice) (serial : String)
    (hdev : env.listDevices = .ok devices)
    (hfind : (devices.filterMap AdbDevice.serial).find?
        (fun s => !strStartsWith s "127.0.0.1") = some serial) :
    setup env fsys isStable now controlPort streamPort clientType clientAutolaunch
        staticResourcesDir cfg mgr
      = match mgr.initialAutolaunchDelay with
        | some t =>
          setupAfterDevice env fsys isStable now controlPort streamPort clientType
            clientAutolaunch staticResourcesDir cfg serial t mgr
        | none =>
          setupAfterDevice env fsys isStable now controlPort streamPort clientType
            clientAutolaunch staticResourcesDir cfg serial now
            { mgr with initialAutolaunchDelay := some now } := by
  simp only [setup, hdev, hfind]

/-- Claim C5: whenever `setup` finds a wired device (ports listing and
forwarding succeed), the forward requests issued are exactly one per required
port missing from the forwarded table — two when both of two distinct required
ports are missing, none when both are present — and no forward-removal request
is ever issued. -/
theorem C5_port_reconciliation (env : Env) (fsys : Fsys) (isStable : Bool) (now : Nat)
    (controlPort streamPort : Nat) (clientType : ClientFlavor) (clientAutolaunch : Bool)
    (staticResourcesDir : String) (cfg : Option WiredClientAutoInstallConfig)
    (mgr : ManagerState) (devices : List AdbDevice) (serial : String) (fps : List Nat)
    (hdev : env.listDevices = .ok devices)
    (hfind : (devices.filterMap AdbDevice.serial).find?
        (fun s => !strStartsWith s "127.0.0.1") = some serial)
    (hfps : env.listForwardedPorts serial = .ok fps)
    (hfw : ∀ p ∈ missingPorts controlPort streamPort fps,
        env.forwardPort serial p = .ok ()) :
    (setup env fsys isStable now controlPort streamPort clientType clientAutolaunch
        staticResourcesDir cfg mgr).trace.filter isForwardOp
      = (missingPorts controlPort streamPort fps).map (BridgeOp.forwardPort serial)
    ∧ (∀ op ∈ (setup env fsys isStable now controlPort streamPort clientType clientAutolaunch
        staticResourcesDir cfg mgr).trace, isRemoveForwardOp op = false)
    ∧ (controlPort ≠ streamPort → ¬controlPort ∈ fps → ¬streamPort ∈ fps →
        (setup env fsys isStable now controlPort streamPort clientType clientAutolaunch
          staticResourcesDir cfg mgr).trace.filter isForwardOp
        = [BridgeOp.forwardPort serial controlPort, BridgeOp.forwardPort serial streamPort])
    ∧ (controlPort ∈ fps → streamPort ∈ fps →
        (setup env fsys isStable now controlPort streamPort clientType clientAutolaunch
          staticResourcesDir cfg mgr).trace.filter isForwardOp = []) := by
  have hmain : (setup env fsys isStable now controlPort streamPort clientType clientAutolaunch
        staticResourcesDir cfg mgr).trace.filter isForwardOp
      = (missingPorts controlPort streamPort fps).map (BridgeOp.forwardPort serial)
    ∧ (∀ op ∈ (setup env fsys isStable now controlPort streamPort clientType clientAutolaunch
        staticResourcesDir cfg mgr).trace, isRemoveForwardOp op = false) := by
    rw [setup_eq_afterDevice env fsys isStable now controlPort streamPort clientType
      clientAutolaunch staticResourcesDir cfg mgr devices serial hdev hfind]
    cases hminit : mgr.initialAutolaunchDelay with
    | some t =>
      exact setupAfterDevice_forward_filter env fsys isStable now controlPort streamPort
        clientType clientAutolaunch staticResourcesDir cfg serial t mgr fps hfps hfw
    | none =>
      exact setupAfterDevice_forward_filter env fsys isStable now controlPort streamPort
        clientType clientAutolaunch staticResourcesDir cfg serial now
        { mgr with initialAutolaunchDelay := some now } fps hfps hfw
  refine ⟨hmain.1, hmain.2, ?_, ?_⟩
  · intro hne hcp hsp
    have hm : missingPorts controlPort streamPort fps = [controlPort, streamPort] := by
      unfold missingPorts
      rw [if_neg (fun h : streamPort = controlPort => hne h.symm)]
      simp [hcp, hsp]
    rw [hmain.1, hm]
    rfl
  · intro hcp hsp
    have hm : missingPorts controlPort streamPort fps = [] := by
      unfold missingPorts
      split <;> simp [hcp, hsp]
    rw [hmain.1, hm]
    rfl

/-- Witness for C5: both required ports missing on a fresh device. -/
theorem C5_port_reconciliation_witness :
    (setup { envLaunch with listForwardedPorts := fun _ => .ok [] } fsysEmpty true 0
        9943 9944 .Store true "/static" none ⟨none, none⟩).trace.filter isForwardOp
      = [BridgeOp.forwardPort "SER" 9943, BridgeOp.forwardPort "SER" 9944] :=
  ((C5_port_reconciliation { envLaunch with listForwardedPorts := fun _ => .ok [] } fsysEmpty
    true 0 9943 9944 .Store true "/static" none ⟨none, none⟩ [⟨some "SER"⟩] "SER" []
    (by decide) (by decide) (by decide) (by decide)).2.2.1)
    (by decide) (by decide) (by decide)

/-- Claim C10: when the control and stream ports are equal, the required-port
set is deduplicated, so a single forward request is issued when that port is
missing and none when it is present. -/
theorem C10_equal_ports_dedup (env : Env) (fsys : Fsys) (isStable : Bool) (now : Nat)
    (port : Nat) (clientType : ClientFlavor) (clientAutolaunch : Bool)
    (staticResourcesDir : String) (cfg : Option WiredClientAutoInstallConfig)
    (mgr : ManagerState) (devices : List AdbDevice) (serial : String) (fps : List Nat)
    (hdev : env.listDevices = .ok devices)
    (hfind : (devices.filterMap AdbDevice.serial).find?
        (fun s => !strStartsWith s "127.0.0.1") = some serial)
    (hfps : env.listForwardedPorts serial = .ok fps)
    (hfw : ∀ p ∈ missingPorts port port fps, env.forwardPort serial p = .ok ()) :
    (¬port ∈ fps →
      (setup env fsys isStable now port port clientType clientAutolaunch
        staticResourcesDir cfg mgr).trace.filter isForwardOp
      = [BridgeOp.forwardPort serial port])
    ∧ (port ∈ fps →
      (setup env fsys isStable now port port clientType clientAutolaunch
        staticResourcesDir cfg mgr).trace.filter isForwardOp = []) := by
  have hmain : (setup env fsys isStable now port port clientType clientAutolaunch
        staticResourcesDir cfg mgr).trace.filter isForwardOp
      = (missingPorts port port fps).map (BridgeOp.forwardPort serial) := by
    rw [setup_eq_afterDevice env fsys isStable now port port clientType
      clientAutolaunch staticResourcesDir cfg mgr devices serial hdev hfind]
    cases hminit : mgr.initialAutolaunchDelay with
    | some t =>
      exact (setupAfterDevice_forward_filter env fsys isStable now port port
        clientType clientAutolaunch staticResourcesDir cfg serial t mgr fps hfps hfw).1
    | none =>
      exact (setupAfterDevice_forward_filter env fsys isStable now port port
        clientType clientAutolaunch staticResourcesDir cfg serial now
        { mgr with initialAutolaunchDelay := some now } fps hfps hfw).1
  constructor
  · intro hnp
    have hm : missingPorts port port fps = [port] := by
      unfold missingPorts
      rw [if_pos rfl]
      simp [hnp]
    rw [hmain, hm]
    rfl
  · intro hp
    have hm : missingPorts port port fps = [] := by
      unfold missingPorts
      rw [if_pos rfl]
      simp [hp]
    rw [hmain, hm]
    rfl

/-- Witness for C10: equal control and stream ports, port not forwarded, one
single forward request. -/
theorem C10_equal_ports_dedup_witness :
    (setup { envLaunch with listForwardedPorts := fun _ => .ok [] } fsysEmpty true 0
        9943 9943 .Store true "/static" none ⟨none, none⟩).trace.filter isForwardOp
      = [BridgeOp.forwardPort "SER" 9943] :=
  ((C10_equal_ports_dedup { envLaunch with listForwardedPorts := fun _ => .ok [] } fsysEmpty
    true 0 9943 .Store true "/static" none ⟨none, none⟩ [⟨some "SER"⟩] "SER" []
    (by decide) (by decide) (by decide) (by decide)).1) (by decide)

/-- Claim C1: the auto-install step of `setup` (descriptor supplied, resolved
source file exists, candidate list non-empty) follows exactly the decision
table: (a) no installed digest: install then grant every listed permission, in
order; (b) installed digest differs from the local digest under
case-insensitive comparison: uninstall, install, grant every listed
permission; (c) digests match case-insensitively: no install, uninstall or
grant operation at all. -/
theorem C1_auto_install_decision_table (env : Env) (fsys : Fsys) (serial : String)
    (applicationIds : List String) (staticResourcesDir : String)
    (cfg : WiredClientAutoInstallConfig) (applicationId : String) (trace : List BridgeOp)
    (hhead : applicationIds.head? = some applicationId)
    (hexists : fsys.pathExists
        (resolveAutoInstallPath staticResourcesDir cfg.clientPackageLocation) = true) :
    (env.getPackageSha1 serial applicationId = .ok none
      → env.installPackage serial
          (resolveAutoInstallPath staticResourcesDir cfg.clientPackageLocation) = .ok ()
      → (∀ perm ∈ cfg.permissions, env.grantPermission serial applicationId perm = .ok ())
      → autoInstallStep env fsys serial applicationIds staticResourcesDir (some cfg) trace
          = (.ok (), trace
              ++ [BridgeOp.getPackageSha1 serial applicationId,
                  BridgeOp.installPackage serial
                    (resolveAutoInstallPath staticResourcesDir cfg.clientPackageLocation)]
              ++ cfg.permissions.map (BridgeOp.grantPermission serial applicationId ·)))
    ∧ (∀ installedSha1 hashStr,
      env.getPackageSha1 serial applicationId = .ok (some installedSha1)
      → fsys.fileSha1 (resolveAutoInstallPath staticResourcesDir cfg.clientPackageLocation)
          = .ok hashStr
      → eqIgnoreAsciiCase installedSha1 hashStr = false
      → env.uninstallPackage serial applicationId = .ok ()
      → env.installPackage serial
          (resolveAutoInstallPath staticResourcesDir cfg.clientPackageLocation) = .ok ()
      → (∀ perm ∈ cfg.permissions, env.grantPermission serial applicationId perm = .ok ())
      → autoInstallStep env fsys serial applicationIds staticResourcesDir (some cfg) trace
          = (.ok (), trace
              ++ [BridgeOp.getPackageSha1 serial applicationId,
                  BridgeOp.uninstallPackage serial applicationId,
                  BridgeOp.installPackage serial
                    (resolveAutoInstallPath staticResourcesDir cfg.clientPackageLocation)]
              ++ cfg.permissions.map (BridgeOp.grantPermission serial applicationId ·)))
    ∧ (∀ installedSha1 hashStr,
      env.getPackageSha1 serial applicationId = .ok (some installedSha1)
      → fsys.fileSha1 (resolveAutoInstallPath staticResourcesDir cfg.clientPackageLocation)
          = .ok hashStr
      → eqIgnoreAsciiCase installedSha1 hashStr = true
      → autoInstallStep env fsys serial applicationIds staticResourcesDir (some cfg) trace
          = (.ok (), trace ++ [BridgeOp.getPackageSha1 serial applicationId])) := by
  refine ⟨?_, ?_, ?_⟩
  · intro hsha hinst hgr
    simp only [autoInstallStep, hexists, if_true, hhead, hsha, installAndGrant, hinst]
    rw [grantLoop_ok env serial applicationId cfg.permissions _ hgr]
    simp
  · intro installedSha1 hashStr hsha hfile heq huninst hinst hgr
    simp only [autoInstallStep, hexists, if_true, hhead, hsha, hfile, heq, Bool.not_false,
      installAndGrant, huninst, hinst]
    rw [grantLoop_ok env serial applicationId cfg.permissions _ hgr]
    simp
  · intro installedSha1 hashStr hsha hfile heq
    simp only [autoInstallStep, hexists, if_true, hhead, hsha, hfile, heq, Bool.not_true]
    simp

/-- Witness for C1 at a concrete descriptor: no installed digest, so install
followed by both permission grants. -/
theorem C1_auto_install_decision_table_witness :
    autoInstallStep envLaunch
        { pathExists := fun p => p == "/static/client.apk", fileSha1 := fun _ => .ok "AB12" }
        "SER" [PACKAGE_NAME_STORE] "/static" (some ⟨"client.apk", ["perm.A", "perm.B"]⟩) []
      = (.ok (), [BridgeOp.getPackageSha1 "SER" PACKAGE_NAME_STORE,
          BridgeOp.installPackage "SER" "/static/client.apk",
          BridgeOp.grantPermission "SER" PACKAGE_NAME_STORE "perm.A",
          BridgeOp.grantPermission "SER" PACKAGE_NAME_STORE "perm.B"]) := by
  have h := (C1_auto_install_decision_table envLaunch
    { pathExists := fun p => p == "/static/client.apk", fileSha1 := fun _ => .ok "AB12" }
    "SER" [PACKAGE_NAME_STORE] "/static" ⟨"client.apk", ["perm.A", "perm.B"]⟩
    PACKAGE_NAME_STORE [] (by decide) (by decide)).1 (by decide) (by decide) (by decide)
  simpa using h

theorem isPkgProbeOp_not_start (op : BridgeOp) (h : isPkgProbeOp op = true) :
    isStartApplicationOp op = false := by
  cases op <;> simp_all [isPkgProbeOp, isStartApplicationOp]

theorem setup_processPhase_form (env : Env) (fsys : Fsys) (isStable : Bool) (now : Nat)
    (controlPort streamPort : Nat) (clientType : ClientFlavor) (clientAutolaunch : Bool)
    (staticResourcesDir : String) (cfg : Option WiredClientAutoInstallConfig)
    (mgr : ManagerState) (devices : List AdbDevice) (serial : String) (fps : List Nat)
    (t0 : Nat) (trMid : List BridgeOp)
    (hdev : env.listDevices = .ok devices)
    (hfind : (devices.filterMap AdbDevice.serial).find?
        (fun s => !strStartsWith s "127.0.0.1") = some serial)
    (hminit : mgr.initialAutolaunchDelay = some t0)
    (hfps : env.listForwardedPorts serial = .ok fps)
    (hfw : ∀ p ∈ missingPorts controlPort streamPort fps,
        env.forwardPort serial p = .ok ())
    (hai : autoInstallStep env fsys serial (get_application_ids isStable clientType)
        staticResourcesDir cfg
        ([BridgeOp.listDevices, BridgeOp.listForwardedPorts serial]
          ++ (missingPorts controlPort streamPort fps).map (BridgeOp.forwardPort serial))
      = (.ok (), trMid)) :
    setup env fsys isStable now controlPort streamPort clientType clientAutolaunch
        staticResourcesDir cfg mgr
      = processPhase env serial (get_application_ids isStable clientType) clientAutolaunch
          now t0 mgr trMid := by
  rw [setup_eq_afterDevice env fsys isStable now controlPort streamPort clientType
    clientAutolaunch staticResourcesDir cfg mgr devices serial hdev hfind, hminit]
  simp only [setupAfterDevice, hfps]
  rw [forwardLoop_ok env serial _ _ hfw]
  simp only
  rw [hai]

/-- Every operation in the trace accumulated before the process-presence check
is a listing, a forward, an auto-install operation or an installed-package
probe: in particular it is not a start-application request. -/
theorem preProcess_no_start (env : Env) (fsys : Fsys) (isStable : Bool)
    (clientType : ClientFlavor) (staticResourcesDir : String)
    (cfg : Option WiredClientAutoInstallConfig) (serial : String)
    (missing : List Nat) (trMid trP : List BridgeOp)
    (hai : autoInstallStep env fsys serial (get_application_ids isStable clientType)
        staticResourcesDir cfg
        ([BridgeOp.listDevices, BridgeOp.listForwardedPorts serial]
          ++ missing.map (BridgeOp.forwardPort serial))
      = (.ok (), trMid))
    (hsel : get_process_name env serial (get_application_ids isStable clientType) trMid
      = (some pname, trP)) :
    ∀ op ∈ trP, isStartApplicationOp op = false := by
  have hpre : ∀ op ∈ [BridgeOp.listDevices, BridgeOp.listForwardedPorts serial]
      ++ missing.map (BridgeOp.forwardPort serial), isStartApplicationOp op = false := by
    intro op hop
    rcases List.mem_append.mp hop with h | h
    · simp only [List.mem_cons, List.not_mem_nil, or_false] at h
      rcases h with rfl | rfl <;> simp [isStartApplicationOp]
    · rcases List.mem_map.mp h with ⟨p, hp, rfl⟩
      simp [isStartApplicationOp]
  have hmid : ∀ op ∈ trMid, isStartApplicationOp op = false := by
    intro op hop
    have := autoInstallStep_ops env fsys serial (get_application_ids isStable clientType)
      staticResourcesDir cfg
      ([BridgeOp.listDevices, BridgeOp.listForwardedPorts serial]
        ++ missing.map (BridgeOp.forwardPort serial)) op
    rw [hai] at this
    rcases this hop with h | h
    · exact hpre op h
    · exact (isAutoInstallOp_not op h).2.2
  intro op hop
  have := get_process_name_ops env serial (get_application_ids isStable clientType) trMid op
  rw [hsel] at this
  rcases this hop with h | h
  · exact hmid op h
  · exact isPkgProbeOp_not_start op h

/-- Claim C2: with a wired device, a selected installed package, no running
process, autolaunch enabled and no post-launch episode pending, `setup`
returns `NotReady "Awaiting pre autolaunch delay"` without any
start-application request while less than 15 seconds have elapsed since the
initial-wait episode start, and at or after 15 seconds issues exactly one
start-application request, records the call time as the post-launch episode
start, and returns `NotReady "Starting ALVR client"`. -/
theorem C2_pre_launch_debounce (env : Env) (fsys : Fsys) (isStable : Bool) (now : Nat)
    (controlPort streamPort : Nat) (clientType : ClientFlavor)
    (staticResourcesDir : String) (cfg : Option WiredClientAutoInstallConfig)
    (mgr : ManagerState) (devices : List AdbDevice) (serial : String) (fps : List Nat)
    (t0 : Nat) (pname : String) (trMid trP : List BridgeOp)
    (hdev : env.listDevices = .ok devices)
    (hfind : (devices.filterMap AdbDevice.serial).find?
        (fun s => !strStartsWith s "127.0.0.1") = some serial)
    (hminit : mgr.initialAutolaunchDelay = some t0)
    (hpost : mgr.postAutolaunchDelay = none)
    (hfps : env.listForwardedPorts serial = .ok fps)
    (hfw : ∀ p ∈ missingPorts controlPort streamPort fps,
        env.forwardPort serial p = .ok ())
    (hai : autoInstallStep env fsys serial (get_application_ids isStable clientType)
        staticResourcesDir cfg
        ([BridgeOp.listDevices, BridgeOp.listForwardedPorts serial]
          ++ (missingPorts controlPort streamPort fps).map (BridgeOp.forwardPort serial))
      = (.ok (), trMid))
    (hsel : get_process_name env serial (get_application_ids isStable clientType) trMid
      = (some pname, trP))
    (hpid : env.getProcessId serial pname = .ok none)
    (hstart : env.startApplication serial pname = .ok ()) :
    (now - t0 < preAutolaunchDelaySecs →
      setup env fsys isStable now controlPort streamPort clientType true
          staticResourcesDir cfg mgr
        = ⟨.ok (.NotReady "Awaiting pre autolaunch delay"), mgr,
            trP ++ [BridgeOp.getProcessId serial pname]⟩
      ∧ (setup env fsys isStable now controlPort streamPort clientType true
          staticResourcesDir cfg mgr).trace.filter isStartApplicationOp = [])
    ∧ (preAutolaunchDelaySecs ≤ now - t0 →
      setup env fsys isStable now controlPort streamPort clientType true
          staticResourcesDir cfg mgr
        = ⟨.ok (.NotReady "Starting ALVR client"),
            { mgr with postAutolaunchDelay := some now },
            trP ++ [BridgeOp.getProcessId serial pname,
              BridgeOp.startApplication serial pname]⟩
      ∧ (setup env fsys isStable now controlPort streamPort clientType true
          staticResourcesDir cfg mgr).trace.filter isStartApplicationOp
        = [BridgeOp.startApplication serial pname]) := by
  have hform := setup_processPhase_form env fsys isStable now controlPort streamPort clientType
    true staticResourcesDir cfg mgr devices serial fps t0 trMid hdev hfind hminit hfps hfw hai
  have hnostart := preProcess_no_start env fsys isStable clientType staticResourcesDir cfg
    serial (missingPorts controlPort streamPort fps) trMid trP hai hsel
  have htrPfilter : trP.filter isStartApplicationOp = [] := by
    rw [List.filter_eq_nil_iff]
    intro op hop
    simp [hnostart op hop]
  constructor
  · intro hlt
    have hres : setup env fsys isStable now controlPort streamPort clientType true
        staticResourcesDir cfg mgr
      = ⟨.ok (.NotReady "Awaiting pre autolaunch delay"), mgr,
          trP ++ [BridgeOp.getProcessId serial pname]⟩ := by
      rw [hform]
      simp only [processPhase, hsel, hpid, hpost, Option.isNone_none, Bool.and_self,
        if_pos hlt]
      simp
    refine ⟨hres, ?_⟩
    rw [hres]
    simp only [List.filter_append, htrPfilter]
    simp [isStartApplicationOp]
  · intro hge
    have hnlt : ¬(now - t0 < preAutolaunchDelaySecs) := Nat.not_lt.mpr hge
    have hres : setup env fsys isStable now controlPort streamPort clientType true
        staticResourcesDir cfg mgr
      = ⟨.ok (.NotReady "Starting ALVR client"),
          { mgr with postAutolaunchDelay := some now },
          trP ++ [BridgeOp.getProcessId serial pname,
            BridgeOp.startApplication serial pname]⟩ := by
      rw [hform]
      simp only [processPhase, hsel, hpid, hpost, Option.isNone_none, Bool.and_self,
        if_neg hnlt, hstart]
      simp
    refine ⟨hres, ?_⟩
    rw [hres]
    simp only [List.filter_append, htrPfilter]
    simp [isStartApplicationOp]

/-- Witness for C2: concrete launch scenario at 20 seconds after the episode
start, so the pre-launch delay has elapsed and the launch is issued. -/
theorem C2_pre_launch_debounce_witness :
    setup envLaunch fsysEmpty true 20 9943 9944 .Store true "/static" none ⟨some 0, none⟩
      = ⟨.ok (.NotReady "Starting ALVR client"), ⟨some 0, some 20⟩,
          [BridgeOp.listDevices, BridgeOp.listForwardedPorts "SER",
           BridgeOp.isPackageInstalled "SER" PACKAGE_NAME_STORE,
           BridgeOp.getProcessId "SER" PACKAGE_NAME_STORE,
           BridgeOp.startApplication "SER" PACKAGE_NAME_STORE]⟩ := by
  have h := ((C2_pre_launch_debounce envLaunch fsysEmpty true 20 9943 9944 .Store "/static"
    none ⟨some 0, none⟩ [⟨some "SER"⟩] "SER" [9943, 9944] 0 PACKAGE_NAME_STORE
    [BridgeOp.listDevices, BridgeOp.listForwardedPorts "SER"]
    [BridgeOp.listDevices, BridgeOp.listForwardedPorts "SER",
      BridgeOp.isPackageInstalled "SER" PACKAGE_NAME_STORE]
    (by decide) (by decide) (by decide) (by decide) (by decide) (by decide) (by decide)
    (by decide) (by decide) (by decide)).2 (by decide)).1
  simpa using h

/-- Claim C6: with the post-launch episode start set, once the process is
running and its activity resumed, `setup` returns
`NotReady "Awaiting post autolaunch delay"` and leaves the timer set while
less than 5 seconds have elapsed since the episode start, and once at least
5 seconds have elapsed it clears the post-launch timer and returns `Ready`. -/
theorem C6_post_launch_debounce (env : Env) (fsys : Fsys) (isStable : Bool) (now : Nat)
    (controlPort streamPort : Nat) (clientType : ClientFlavor) (clientAutolaunch : Bool)
    (staticResourcesDir : String) (cfg : Option WiredClientAutoInstallConfig)
    (mgr : ManagerState) (devices : List AdbDevice) (serial : String) (fps : List Nat)
    (t0 tL : Nat) (pid : Nat) (pname : String) (trMid trP : List BridgeOp)
    (hdev : env.listDevices = .ok devices)
    (hfind : (devices.filterMap AdbDevice.serial).find?
        (fun s => !strStartsWith s "127.0.0.1") = some serial)
    (hminit : mgr.initialAutolaunchDelay = some t0)
    (hpostSet : mgr.postAutolaunchDelay = some tL)
    (hfps : env.listForwardedPorts serial = .ok fps)
    (hfw : ∀ p ∈ missingPorts controlPort streamPort fps,
        env.forwardPort serial p = .ok ())
    (hai : autoInstallStep env fsys serial (get_application_ids isStable clientType)
        staticResourcesDir cfg
        ([BridgeOp.listDevices, BridgeOp.listForwardedPorts serial]
          ++ (missingPorts controlPort streamPort fps).map (BridgeOp.forwardPort serial))
      = (.ok (), trMid))
    (hsel : get_process_name env serial (get_application_ids isStable clientType) trMid
      = (some pname, trP))
    (hpid : env.getProcessId serial pname = .ok (some pid))
    (hres : env.isActivityResumed serial pname = .ok true) :
    (now - tL < postAutolaunchDelaySecs →
      setup env fsys isStable now controlPort streamPort clientType clientAutolaunch
          staticResourcesDir cfg mgr
        = ⟨.ok (.NotReady "Awaiting post autolaunch delay"), mgr,
            trP ++ [BridgeOp.getProcessId serial pname,
              BridgeOp.isActivityResumed serial pname]⟩)
    ∧ (postAutolaunchDelaySecs ≤ now - tL →
      setup env fsys isStable now controlPort streamPort clientType clientAutolaunch
          staticResourcesDir cfg mgr
        = ⟨.ok .Ready, { mgr with postAutolaunchDelay := none },
            trP ++ [BridgeOp.getProcessId serial pname,
              BridgeOp.isActivityResumed serial pname]⟩) := by
  have hform := setup_processPhase_form env fsys isStable now controlPort streamPort clientType
    clientAutolaunch staticResourcesDir cfg mgr devices serial fps t0 trMid hdev hfind hminit
    hfps hfw hai
  constructor
  · intro hlt
    rw [hform]
    simp only [processPhase, hsel, hpid, hres, hpostSet, if_pos hlt]
    simp
  · intro hge
    have hnlt : ¬(now - tL < postAutolaunchDelaySecs) := Nat.not_lt.mpr hge
    rw [hform]
    simp only [processPhase, hsel, hpid, hres, hpostSet, if_neg hnlt]
    simp

/-- Witness for C6: running and resumed client 2 seconds after the launch, so
the post-launch delay has not elapsed yet. -/
theorem C6_post_launch_debounce_witness :
    setup envReady fsysEmpty true 22 9943 9944 .Store true "/static" none ⟨some 0, some 20⟩
      = ⟨.ok (.NotReady "Awaiting post autolaunch delay"), ⟨some 0, some 20⟩,
          [BridgeOp.listDevices, BridgeOp.listForwardedPorts "SER",
           BridgeOp.isPackageInstalled "SER" PACKAGE_NAME_STORE,
           BridgeOp.getProcessId "SER" PACKAGE_NAME_STORE,
           BridgeOp.isActivityResumed "SER" PACKAGE_NAME_STORE]⟩ := by
  have h := (C6_post_launch_debounce envReady fsysEmpty true 22 9943 9944 .Store true "/static"
    none ⟨some 0, some 20⟩ [⟨some "SER"⟩] "SER" [9943, 9944] 0 20 1234 PACKAGE_NAME_STORE
    [BridgeOp.listDevices, BridgeOp.listForwardedPorts "SER"]
    [BridgeOp.listDevices, BridgeOp.listForwardedPorts "SER",
      BridgeOp.isPackageInstalled "SER" PACKAGE_NAME_STORE]
    (by decide) (by decide) (by decide) (by decide) (by decide) (by decide) (by decide)
    (by decide) (by decide) (by decide)).1 (by decide)
  simpa using h

/-- Claim C7 counterexample: the no-wired-device branch also clears the
post-launch timer, here while its grace period (5) has not elapsed at time 4
and nothing was observed resumed. -/
theorem C7_counterexample :
    (setup envNoDevices fsysEmpty true 4 9943 9944 .Store true "/static" none
        ⟨some 3, some 5⟩).mgr.postAutolaunchDelay = none
    ∧ (setup envNoDevices fsysEmpty true 4 9943 9944 .Store true "/static" none
        ⟨some 3, some 5⟩).result = .ok (.NotReady "No wired devices found") := by
  decide

/-- Claim C7 as amended: across one `setup` call the post-launch timestamp
either is unchanged, or is set (only from the cleared state, only when a launch
is initiated, recording the call time), or is cleared, the latter only when no
wired device was found (full episodic reset) or when its grace period has
elapsed and the call returns `Ready` (the app observed resumed). -/
theorem C7_post_timer_transitions (env : Env) (fsys : Fsys) (isStable : Bool) (now : Nat)
    (controlPort streamPort : Nat) (clientType : ClientFlavor) (clientAutolaunch : Bool)
    (staticResourcesDir : String) (cfg : Option WiredClientAutoInstallConfig)
    (mgr : ManagerState) :
    (setup env fsys isStable now controlPort streamPort clientType clientAutolaunch
        staticResourcesDir cfg mgr).mgr.postAutolaunchDelay = mgr.postAutolaunchDelay
    ∨ ((setup env fsys isStable now controlPort streamPort clientType clientAutolaunch
          staticResourcesDir cfg mgr).result = .ok (.NotReady "No wired devices found")
        ∧ (setup env fsys isStable now controlPort streamPort clientType clientAutolaunch
            staticResourcesDir cfg mgr).mgr
          = { initialAutolaunchDelay := none, postAutolaunchDelay := none })
    ∨ (mgr.postAutolaunchDelay = none
        ∧ (setup env fsys isStable now controlPort streamPort clientType clientAutolaunch
            staticResourcesDir cfg mgr).mgr.postAutolaunchDelay = some now
        ∧ (setup env fsys isStable now controlPort streamPort clientType clientAutolaunch
            staticResourcesDir cfg mgr).result = .ok (.NotReady "Starting ALVR client")
        ∧ (setup env fsys isStable now controlPort streamPort clientType clientAutolaunch
            staticResourcesDir cfg mgr).trace.filter isStartApplicationOp ≠ [])
    ∨ (∃ t, mgr.postAutolaunchDelay = some t
        ∧ postAutolaunchDelaySecs ≤ now - t
        ∧ (setup env fsys isStable now controlPort streamPort clientType clientAutolaunch
            staticResourcesDir cfg mgr).mgr.postAutolaunchDelay = none
        ∧ (setup env fsys isStable now controlPort streamPort clientType clientAutolaunch
            staticResourcesDir cfg mgr).result = .ok .Ready) := by
  have haux := fun serial init mgrIn =>
    setupAfterDevice_post env fsys isStable now controlPort streamPort clientType
      clientAutolaunch staticResourcesDir cfg serial init mgrIn
  simp only [setup]
  split
  · simp
  · split
    · simp
    · rename_i devices serial hfind
      split
      · rename_i t0 hminit
        rcases haux serial t0 mgr with h | h | h
        · exact Or.inl h
        · exact Or.inr (Or.inr (Or.inl h))
        · exact Or.inr (Or.inr (Or.inr h))
      · rename_i hminit
        rcases haux serial now { mgr with initialAutolaunchDelay := some now } with h | h | h
        · exact Or.inl h
        · exact Or.inr (Or.inr (Or.inl h))
        · exact Or.inr (Or.inr (Or.inr h))

/-! Lemmas for error propagation: when a phase reports success, every bridge
operation it issued (probes apart) was answered without a bridge failure. -/

theorem forwardLoop_ok_ops (env : Env) (s : String) (ps : List Nat) (tr : List BridgeOp)
    (h : (forwardLoop env s ps tr).1 = .ok ()) :
    ∀ op ∈ (forwardLoop env s ps tr).2, op ∈ tr ∨ opIsError env op = false := by
  induction ps generalizing tr with
  | nil => intro op hop; exact Or.inl (by simpa [forwardLoop] using hop)
  | cons p rest ih =>
    intro op hop
    simp only [forwardLoop] at h hop
    cases hq : env.forwardPort s p with
    | error e => simp only [hq] at h; simp at h
    | ok u =>
      simp only [hq] at h hop
      rcases ih _ h op hop with hmem | hok
      · rcases List.mem_append.mp hmem with h1 | h2
        · exact Or.inl h1
        · simp only [List.mem_singleton] at h2
          subst h2
          exact Or.inr (by simp [opIsError, hq, exceptIsErr])
      · exact Or.inr hok

theorem grantLoop_ok_ops (env : Env) (s a : String) (perms : List String) (tr : List BridgeOp)
    (h : (grantLoop env s a perms tr).1 = .ok ()) :
    ∀ op ∈ (grantLoop env s a perms tr).2, op ∈ tr ∨ opIsError env op = false := by
  induction perms generalizing tr with
  | nil => intro op hop; exact Or.inl (by simpa [grantLoop] using hop)
  | cons perm rest ih =>
    intro op hop
    simp only [grantLoop] at h hop
    cases hq : env.grantPermission s a perm with
    | error e => simp only [hq] at h; simp at h
    | ok u =>
      simp only [hq] at h hop
      rcases ih _ h op hop with hmem | hok
      · rcases List.mem_append.mp hmem with h1 | h2
        · exact Or.inl h1
        · simp only [List.mem_singleton] at h2
          subst h2
          exact Or.inr (by simp [opIsError, hq, exceptIsErr])
      · exact Or.inr hok

theorem installAndGrant_ok_ops (env : Env) (s a p : String) (perms : List String)
    (tr : List BridgeOp) (h : (installAndGrant env s a p perms tr).1 = .ok ()) :
    ∀ op ∈ (installAndGrant env s a p perms tr).2, op ∈ tr ∨ opIsError env op = false := by
  intro op hop
  simp only [installAndGrant] at h hop
  cases hq : env.installPackage s p with
  | error e => simp only [hq] at h; simp at h
  | ok u =>
    simp only [hq] at h hop
    rcases grantLoop_ok_ops env s a perms _ h op hop with hmem | hok
    · rcases List.mem_append.mp hmem with h1 | h2
      · exact Or.inl h1
      · simp only [List.mem_singleton] at h2
        subst h2
        exact Or.inr (by simp [opIsError, hq, exceptIsErr])
    · exact Or.inr hok

theorem autoInstallStep_ok_ops (env : Env) (fsys : Fsys) (s : String) (ids : List String)
    (dir : String) (cfg : Option WiredClientAutoInstallConfig) (tr : List BridgeOp)
    (h : (autoInstallStep env fsys s ids dir cfg tr).1 = .ok ()) :
    ∀ op ∈ (autoInstallStep env fsys s ids dir cfg tr).2,
      op ∈ tr ∨ opIsError env op = false := by
  intro op hop
  cases cfg with
  | none => exact Or.inl (by simpa [autoInstallStep] using hop)
  | some cfg =>
    simp only [autoInstallStep] at h hop
    cases hex : fsys.pathExists (resolveAutoInstallPath dir cfg.clientPackageLocation) with
    | false => rw [hex] at hop; exact Or.inl (by simpa using hop)
    | true =>
      rw [hex] at h hop
      simp only [if_true] at h hop
      cases hh : ids.head? with
      | none => rw [hh] at hop; exact Or.inl (by simpa using hop)
      | some appId =>
        rw [hh] at h hop
        simp only at h hop
        cases hs : env.getPackageSha1 s appId with
        | error e => simp only [hs] at h; simp at h
        | ok osha =>
          simp only [hs] at h hop
          have singl : ∀ q ∈ tr ++ [BridgeOp.getPackageSha1 s appId],
              q ∈ tr ∨ opIsError env q = false := by
            intro q hq
            rcases List.mem_append.mp hq with h1 | h2
            · exact Or.inl h1
            · simp only [List.mem_singleton] at h2
              subst h2
              exact Or.inr (by simp [opIsError, hs, exceptIsErr])
          cases osha with
          | none =>
            rcases installAndGrant_ok_ops env s appId _ cfg.permissions _ h op hop with
              hmem | hok
            · exact singl op hmem
            · exact Or.inr hok
          | some installedSha1 =>
            simp only at h hop
            cases hf : fsys.fileSha1 (resolveAutoInstallPath dir cfg.clientPackageLocation) with
            | error e => simp only [hf] at h; simp at h
            | ok hashStr =>
              simp only [hf] at h hop
              cases heq : eqIgnoreAsciiCase installedSha1 hashStr with
              | true => rw [heq] at hop; exact singl op (by simpa using hop)
              | false =>
                rw [heq] at h hop
                simp only [Bool.not_false, if_true] at h hop
                cases hu : env.uninstallPackage s appId with
                | error e => simp only [hu] at h; simp at h
                | ok u =>
                  simp only [hu] at h hop
                  have singl2 : ∀ q ∈ (tr ++ [BridgeOp.getPackageSha1 s appId])
                      ++ [BridgeOp.uninstallPackage s appId],
                      q ∈ tr ∨ opIsError env q = false := by
                    intro q hq
                    rcases List.mem_append.mp hq with h1 | h2
                    · exact singl q h1
                    · simp only [List.mem_singleton] at h2
                      subst h2
                      exact Or.inr (by simp [opIsError, hu, exceptIsErr])
                  rcases installAndGrant_ok_ops env s appId _ cfg.permissions _ h op hop with
                    hmem | hok
                  · exact singl2 op hmem
                  · exact Or.inr hok

theorem processPhase_ok_ops (env : Env) (s : String) (ids : List String) (auto : Bool)
    (now init : Nat) (mgr : ManagerState) (tr : List BridgeOp) (st : WiredConnectionStatus)
    (h : (processPhase env s ids auto now init mgr tr).result = .ok st) :
    ∀ op ∈ (processPhase env s ids auto now init mgr tr).trace,
      op ∈ tr ∨ isPkgProbeOp op = true ∨ opIsError env op = false := by
  intro op hop
  simp only [processPhase] at h hop
  rw [get_process_name_frame env s ids tr] at h hop
  have hbase : ∀ q ∈ tr ++ (get_process_name env s ids []).2,
      q ∈ tr ∨ isPkgProbeOp q = true ∨ opIsError env q = false := by
    intro q hq
    rcases List.mem_append.mp hq with h1 | h2
    · exact Or.inl h1
    · rcases get_process_name_ops env s ids [] q h2 with hmem | hp
      · simp at hmem
      · exact Or.inr (Or.inl hp)
  cases hg : (get_process_name env s ids []).1 with
  | none => simp only [hg] at hop; exact hbase op hop
  | some pname =>
    simp only [hg] at h hop
    cases hp : env.getProcessId s pname with
    | error e => simp only [hp] at h; simp at h
    | ok opid =>
      simp only [hp] at h hop
      have h2 : ∀ q ∈ (tr ++ (get_process_name env s ids []).2)
          ++ [BridgeOp.getProcessId s pname],
          q ∈ tr ∨ isPkgProbeOp q = true ∨ opIsError env q = false := by
        intro q hq
        rcases List.mem_append.mp hq with h1 | hq2
        · exact hbase q h1
        · simp only [List.mem_singleton] at hq2
          subst hq2
          exact Or.inr (Or.inr (by simp [opIsError, hp, exceptIsErr]))
      cases opid with
      | none =>
        simp only at h hop
        cases hc : auto && mgr.postAutolaunchDelay.isNone with
        | false => rw [hc] at hop; exact h2 op (by simpa using hop)
        | true =>
          rw [hc] at h hop
          simp only [if_true] at h hop
          by_cases ht : now - init < preAutolaunchDelaySecs
          · rw [if_pos ht] at hop; exact h2 op (by simpa using hop)
          · rw [if_neg ht] at h hop
            cases hsa : env.startApplication s pname with
            | error e => simp only [hsa] at h; simp at h
            | ok u =>
              simp only [hsa] at hop
              have h3 : ∀ q ∈ ((tr ++ (get_process_name env s ids []).2)
                  ++ [BridgeOp.getProcessId s pname]) ++ [BridgeOp.startApplication s pname],
                  q ∈ tr ∨ isPkgProbeOp q = true ∨ opIsError env q = false := by
                intro q hq
                rcases List.mem_append.mp hq with h1 | hq2
                · exact h2 q h1
                · simp only [List.mem_singleton] at hq2
                  subst hq2
                  exact Or.inr (Or.inr (by simp [opIsError, hsa, exceptIsErr]))
              exact h3 op (by simpa using hop)
      | some pid =>
        simp only at h hop
        cases hr : env.isActivityResumed s pname with
        | error e => simp only [hr] at h; simp at h
        | ok b =>
          simp only [hr] at h hop
          have h3 : ∀ q ∈ ((tr ++ (get_process_name env s ids []).2)
              ++ [BridgeOp.getProcessId s pname]) ++ [BridgeOp.isActivityResumed s pname],
              q ∈ tr ∨ isPkgProbeOp q = true ∨ opIsError env q = false := by
            intro q hq
            rcases List.mem_append.mp hq with h1 | hq2
            · exact h2 q h1
            · simp only [List.mem_singleton] at hq2
              subst hq2
              exact Or.inr (Or.inr (by simp [opIsError, hr, exceptIsErr]))
          cases b with
          | false => exact h3 op (by simpa using hop)
          | true =>
            simp only at hop
            cases hpost : mgr.postAutolaunchDelay with
            | none => rw [hpost] at hop; exact h3 op (by simpa using hop)
            | some t =>
              rw [hpost] at hop
              simp only at hop
              by_cases ht : now - t < postAutolaunchDelaySecs
              · rw [if_pos ht] at hop; exact h3 op (by simpa using hop)
              · rw [if_neg ht] at hop; exact h3 op (by simpa using hop)

theorem processPhase_mgr_cases (env : Env) (s : String) (ids : List String) (auto : Bool)
    (now init : Nat) (mgr : ManagerState) (tr : List BridgeOp) :
    (processPhase env s ids auto now init mgr tr).mgr = mgr
    ∨ ((processPhase env s ids auto now init mgr tr).mgr
          = { mgr with postAutolaunchDelay := some now }
        ∧ (processPhase env s ids auto now init mgr tr).result
          = .ok (.NotReady "Starting ALVR client"))
    ∨ ((processPhase env s ids auto now init mgr tr).mgr
          = { mgr with postAutolaunchDelay := none }
        ∧ (processPhase env s ids auto now init mgr tr).result = .ok .Ready) := by
  simp only [processPhase]
  rw [get_process_name_frame env s ids tr]
  cases hg : (get_process_name env s ids []).1 with
  | none => simp
  | some pname =>
    simp only
    cases hp : env.getProcessId s pname with
    | error e2 => simp
    | ok opid =>
      cases opid with
      | none =>
        simp only
        cases hc : auto && mgr.postAutolaunchDelay.isNone with
        | false => simp
        | true =>
          simp only [if_true]
          by_cases ht : now - init < preAutolaunchDelaySecs
          · simp [ht]
          · simp only [if_neg ht]
            cases hsa : env.startApplication s pname with
            | error e2 => simp
            | ok u => simp
      | some pid =>
        simp only
        cases hr : env.isActivityResumed s pname with
        | error e2 => simp
        | ok b =>
          cases b with
          | false => simp
          | true =>
            simp only
            cases hpost : mgr.postAutolaunchDelay with
            | none => simp
            | some t =>
              by_cases ht : now - t < postAutolaunchDelaySecs
              · simp [ht]
              · simp [ht]

theorem processPhase_error_mgr (env : Env) (s : String) (ids : List String) (auto : Bool)
    (now init : Nat) (mgr : ManagerState) (tr : List BridgeOp) (e : String)
    (h : (processPhase env s ids auto now init mgr tr).result = .error e) :
    (processPhase env s ids auto now init mgr tr).mgr = mgr := by
  rcases processPhase_mgr_cases env s ids auto now init mgr tr with hc | ⟨hc, hr⟩ | ⟨hc, hr⟩
  · exact hc
  · rw [hr] at h; simp at h
  · rw [hr] at h; simp at h

theorem setupAfterDevice_error_mgr (env : Env) (fsys : Fsys) (isStable : Bool) (now : Nat)
    (controlPort streamPort : Nat) (clientType : ClientFlavor) (clientAutolaunch : Bool)
    (staticResourcesDir : String) (cfg : Option WiredClientAutoInstallConfig)
    (serial : String) (init : Nat) (mgrIn : ManagerState) (e : String)
    (h : (setupAfterDevice env fsys isStable now controlPort streamPort clientType
        clientAutolaunch staticResourcesDir cfg serial init mgrIn).result = .error e) :
    (setupAfterDevice env fsys isStable now controlPort streamPort clientType
        clientAutolaunch staticResourcesDir cfg serial init mgrIn).mgr = mgrIn := by
  simp only [setupAfterDevice] at h ⊢
  cases hlfp : env.listForwardedPorts serial with
  | error e2 => simp
  | ok fps =>
    simp only [hlfp] at h ⊢
    cases hfl : forwardLoop env serial (missingPorts controlPort streamPort fps)
        [BridgeOp.listDevices, BridgeOp.listForwardedPorts serial] with
    | mk r1 tr1 =>
      simp only [hfl] at h ⊢
      cases r1 with
      | error e2 => simp
      | ok u =>
        simp only at h ⊢
        cases hAI : autoInstallStep env fsys serial (get_application_ids isStable clientType)
            staticResourcesDir cfg tr1 with
        | mk r2 tr2 =>
          simp only [hAI] at h ⊢
          cases r2 with
          | error e2 => simp
          | ok u2 =>
            simp only at h ⊢
            exact processPhase_error_mgr env serial (get_application_ids isStable clientType)
              clientAutolaunch now init mgrIn tr2 e h

theorem setupAfterDevice_ok_ops (env : Env) (fsys : Fsys) (isStable : Bool) (now : Nat)
    (controlPort streamPort : Nat) (clientType : ClientFlavor) (clientAutolaunch : Bool)
    (staticResourcesDir : String) (cfg : Option WiredClientAutoInstallConfig)
    (serial : String) (init : Nat) (mgrIn : ManagerState) (st : WiredConnectionStatus)
    (h : (setupAfterDevice env fsys isStable now controlPort streamPort clientType
        clientAutolaunch staticResourcesDir cfg serial init mgrIn).result = .ok st) :
    ∀ op ∈ (setupAfterDevice env fsys isStable now controlPort streamPort clientType
        clientAutolaunch staticResourcesDir cfg serial init mgrIn).trace,
      op = BridgeOp.listDevices ∨ isPkgProbeOp op = true ∨ opIsError env op = false := by
  intro op hop
  simp only [setupAfterDevice] at h hop
  cases hlfp : env.listForwardedPorts serial with
  | error e => simp only [hlfp] at h; simp at h
  | ok fps =>
    simp only [hlfp] at h hop
    have hpre : ∀ q ∈ [BridgeOp.listDevices, BridgeOp.listForwardedPorts serial],
        q = BridgeOp.listDevices ∨ isPkgProbeOp q = true ∨ opIsError env q = false := by
      intro q hq
      simp only [List.mem_cons, List.not_mem_nil, or_false] at hq
      rcases hq with rfl | rfl
      · exact Or.inl rfl
      · exact Or.inr (Or.inr (by simp [opIsError, hlfp, exceptIsErr]))
    cases hfl : forwardLoop env serial (missingPorts controlPort streamPort fps)
        [BridgeOp.listDevices, BridgeOp.listForwardedPorts serial] with
    | mk r1 tr1 =>
      simp only [hfl] at h hop
      cases r1 with
      | error e => simp at h
      | ok u =>
        simp only at h hop
        have htr1 : ∀ q ∈ tr1,
            q = BridgeOp.listDevices ∨ isPkgProbeOp q = true ∨ opIsError env q = false := by
          intro q hq
          have hfst : (forwardLoop env serial (missingPorts controlPort streamPort fps)
              [BridgeOp.listDevices, BridgeOp.listForwardedPorts serial]).1 = .ok () := by
            rw [hfl]
          have hsnd : q ∈ (forwardLoop env serial (missingPorts controlPort streamPort fps)
              [BridgeOp.listDevices, BridgeOp.listForwardedPorts serial]).2 := by
            rw [hfl]; exact hq
          rcases forwardLoop_ok_ops env serial _ _ hfst q hsnd with hmem | hok
          · exact hpre q hmem
          · exact Or.inr (Or.inr hok)
        cases hAI : autoInstallStep env fsys serial (get_application_ids isStable clientType)
            staticResourcesDir cfg tr1 with
        | mk r2 tr2 =>
          simp only [hAI] at h hop
          cases r2 with
          | error e => simp at h
          | ok u2 =>
            simp only at h hop
            have htr2 : ∀ q ∈ tr2,
                q = BridgeOp.listDevices ∨ isPkgProbeOp q = true
                  ∨ opIsError env q = false := by
              intro q hq
              have hfst : (autoInstallStep env fsys serial
                  (get_application_ids isStable clientType)
                  staticResourcesDir cfg tr1).1 = .ok () := by rw [hAI]
              have hsnd : q ∈ (autoInstallStep env fsys serial
                  (get_application_ids isStable clientType)
                  staticResourcesDir cfg tr1).2 := by rw [hAI]; exact hq
              rcases autoInstallStep_ok_ops env fsys serial _ staticResourcesDir cfg tr1
                  hfst q hsnd with hmem | hok
              · exact htr1 q hmem
              · exact Or.inr (Or.inr hok)
            rcases processPhase_ok_ops env serial (get_application_ids isStable clientType)
                clientAutolaunch now init mgrIn tr2 st h op hop with hmem | hp | hok
            · exact htr2 op hmem
            · exact Or.inr (Or.inl hp)
            · exact Or.inr (Or.inr hok)

theorem setupAfterDevice_noSuitable (env : Env) (fsys : Fsys) (isStable : Bool) (now : Nat)
    (controlPort streamPort : Nat) (clientType : ClientFlavor) (clientAutolaunch : Bool)
    (staticResourcesDir : String) (cfg : Option WiredClientAutoInstallConfig)
    (serial : String) (init : Nat) (mgrIn : ManagerState) (fps : List Nat)
    (trMid : List BridgeOp)
    (hfps : env.listForwardedPorts serial = .ok fps)
    (hfw : ∀ p ∈ missingPorts controlPort streamPort fps,
        env.forwardPort serial p = .ok ())
    (hai : autoInstallStep env fsys serial (get_application_ids isStable clientType)
        staticResourcesDir cfg
        ([BridgeOp.listDevices, BridgeOp.listForwardedPorts serial]
          ++ (missingPorts controlPort streamPort fps).map (BridgeOp.forwardPort serial))
      = (.ok (), trMid))
    (hprobe : ∀ id ∈ get_application_ids isStable clientType,
        exceptIsErr (env.isPackageInstalled serial id) = true) :
    (setupAfterDevice env fsys isStable now controlPort streamPort clientType
        clientAutolaunch staticResourcesDir cfg serial init mgrIn).result
      = .ok (.NotReady "No suitable ALVR client is installed") := by
  have hne : ∀ appId ∈ get_application_ids isStable clientType,
      env.isPackageInstalled serial appId ≠ .ok true := by
    intro id hid heq
    have h2 := hprobe id hid
    rw [heq] at h2
    simp [exceptIsErr] at h2
  simp only [setupAfterDevice, hfps]
  rw [forwardLoop_ok env serial _ _ hfw]
  simp only
  rw [hai]
  simp only [processPhase]
  rw [get_process_name_none env serial _ trMid hne]

/-- Claim C3 counterexample: a bridge failure of the installed-package probe
during candidate selection is not propagated (the call returns
`NotReady "No suitable ALVR client is installed"` instead of an error), and on
a genuinely propagated error (forwarded-port listing failure) the initial-wait
timer is not left unchanged: it is set from the cleared state to the call
time. -/
theorem C3_counterexample :
    (setup envProbeFail fsysEmpty true 20 9943 9944 .Store true "/static" none
        ⟨some 0, none⟩).result = .ok (.NotReady "No suitable ALVR client is installed")
    ∧ (setup envPortsFail fsysEmpty true 20 9943 9944 .Store true "/static" none
        ⟨none, none⟩).result = .error "bridge failure"
    ∧ (setup envPortsFail fsysEmpty true 20 9943 9944 .Store true "/static" none
        ⟨none, none⟩).mgr.initialAutolaunchDelay = some 20 := by
  decide

/-- Claim C3 as amended: (i) whenever `setup` aborts with an error, the
post-launch timer is left unchanged and the initial-wait timer is either
unchanged or (only if it was cleared, a device having been found before the
failure) set to the call time; (ii) a bridge failure of the
installed-package probe used for candidate selection is not propagated: with
the earlier phases succeeding, the call returns
`NotReady "No suitable ALVR client is installed"`; (iii) every other
bridge-level failure aborts the call: a successful call implies every issued
operation other than an installed-package probe was answered without
failure. -/
theorem C3_bridge_failures :
    (∀ (env : Env) (fsys : Fsys) (isStable : Bool) (now controlPort streamPort : Nat)
        (clientType : ClientFlavor) (clientAutolaunch : Bool) (staticResourcesDir : String)
        (cfg : Option WiredClientAutoInstallConfig) (mgr : ManagerState) (e : String),
      (setup env fsys isStable now controlPort streamPort clientType clientAutolaunch
          staticResourcesDir cfg mgr).result = .error e →
      (setup env fsys isStable now controlPort streamPort clientType clientAutolaunch
          staticResourcesDir cfg mgr).mgr.postAutolaunchDelay = mgr.postAutolaunchDelay
      ∧ ((setup env fsys isStable now controlPort streamPort clientType clientAutolaunch
            staticResourcesDir cfg mgr).mgr.initialAutolaunchDelay
          = mgr.initialAutolaunchDelay
        ∨ (mgr.initialAutolaunchDelay = none
            ∧ (setup env fsys isStable now controlPort streamPort clientType clientAutolaunch
                staticResourcesDir cfg mgr).mgr.initialAutolaunchDelay = some now)))
    ∧ (∀ (env : Env) (fsys : Fsys) (isStable : Bool) (now controlPort streamPort : Nat)
        (clientType : ClientFlavor) (clientAutolaunch : Bool) (staticResourcesDir : String)
        (cfg : Option WiredClientAutoInstallConfig) (mgr : ManagerState)
        (devices : List AdbDevice) (serial : String) (fps : List Nat)
        (trMid : List BridgeOp),
      env.listDevices = .ok devices →
      (devices.filterMap AdbDevice.serial).find?
          (fun s => !strStartsWith s "127.0.0.1") = some serial →
      env.listForwardedPorts serial = .ok fps →
      (∀ p ∈ missingPorts controlPort streamPort fps,
          env.forwardPort serial p = .ok ()) →
      autoInstallStep env fsys serial (get_application_ids isStable clientType)
          staticResourcesDir cfg
          ([BridgeOp.listDevices, BridgeOp.listForwardedPorts serial]
            ++ (missingPorts controlPort streamPort fps).map (BridgeOp.forwardPort serial))
        = (.ok (), trMid) →
      (∀ id ∈ get_application_ids isStable clientType,
          exceptIsErr (env.isPackageInstalled serial id) = true) →
      (setup env fsys isStable now controlPort streamPort clientType clientAutolaunch
          staticResourcesDir cfg mgr).result
        = .ok (.NotReady "No suitable ALVR client is installed"))
    ∧ (∀ (env : Env) (fsys : Fsys) (isStable : Bool) (now controlPort streamPort : Nat)
        (clientType : ClientFlavor) (clientAutolaunch : Bool) (staticResourcesDir : String)
        (cfg : Option WiredClientAutoInstallConfig) (mgr : ManagerState)
        (st : WiredConnectionStatus),
      (setup env fsys isStable now controlPort streamPort clientType clientAutolaunch
          staticResourcesDir cfg mgr).result = .ok st →
      ∀ op ∈ (setup env fsys isStable now controlPort streamPort clientType clientAutolaunch
          staticResourcesDir cfg mgr).trace,
        isPkgProbeOp op = true ∨ opIsError env op = false) := by
  refine ⟨?_, ?_, ?_⟩
  · intro env fsys isStable now controlPort streamPort clientType clientAutolaunch
      staticResourcesDir cfg mgr e h
    simp only [setup] at h ⊢
    cases hdev : env.listDevices with
    | error e2 =>
      simp only [hdev] at h ⊢
      simp
    | ok devices =>
      simp only [hdev] at h ⊢
      cases hfind : (devices.filterMap AdbDevice.serial).find?
          (fun s => !strStartsWith s "127.0.0.1") with
      | none => simp only [hfind] at h; simp at h
      | some serial =>
        simp only [hfind] at h ⊢
        cases hminit : mgr.initialAutolaunchDelay with
        | some t0 =>
          simp only [hminit] at h ⊢
          have hm := setupAfterDevice_error_mgr env fsys isStable now controlPort streamPort
            clientType clientAutolaunch staticResourcesDir cfg serial t0 mgr e h
          rw [hm]
          exact ⟨rfl, Or.inl (by simp [hminit])⟩
        | none =>
          simp only [hminit] at h ⊢
          have hm := setupAfterDevice_error_mgr env fsys isStable now controlPort streamPort
            clientType clientAutolaunch staticResourcesDir cfg serial now
            { mgr with initialAutolaunchDelay := some now } e h
          rw [hm]
          exact ⟨rfl, Or.inr ⟨by simp [hminit], by simp⟩⟩
  · intro env fsys isStable now controlPort streamPort clientType clientAutolaunch
      staticResourcesDir cfg mgr devices serial fps trMid hdev hfind hfps hfw hai hprobe
    rw [setup_eq_afterDevice env fsys isStable now controlPort streamPort clientType
      clientAutolaunch staticResourcesDir cfg mgr devices serial hdev hfind]
    cases hminit : mgr.initialAutolaunchDelay with
    | some t0 =>
      exact setupAfterDevice_noSuitable env fsys isStable now controlPort streamPort
        clientType clientAutolaunch staticResourcesDir cfg serial t0 mgr fps trMid
        hfps hfw hai hprobe
    | none =>
      exact setupAfterDevice_noSuitable env fsys isStable now controlPort streamPort
        clientType clientAutolaunch staticResourcesDir cfg serial now
        { mgr with initialAutolaunchDelay := some now } fps trMid hfps hfw hai hprobe
  · intro env fsys isStable now controlPort streamPort clientType clientAutolaunch
      staticResourcesDir cfg mgr st h op hop
    simp only [setup] at h hop
    cases hdev : env.listDevices with
    | error e => simp only [hdev] at h; simp at h
    | ok devices =>
      simp only [hdev] at h hop
      cases hfind : (devices.filterMap AdbDevice.serial).find?
          (fun s => !strStartsWith s "127.0.0.1") with
      | none =>
        simp only [hfind] at hop
        simp only [List.mem_singleton] at hop
        subst hop
        exact Or.inr (by simp [opIsError, hdev, exceptIsErr])
      | some serial =>
        simp only [hfind] at h hop
        cases hminit : mgr.initialAutolaunchDelay with
        | some t0 =>
          simp only [hminit] at h hop
          rcases setupAfterDevice_ok_ops env fsys isStable now controlPort streamPort
              clientType clientAutolaunch staticResourcesDir cfg serial t0 mgr st h op hop
            with hld | hp | hok
          · subst hld; exact Or.inr (by simp [opIsError, hdev, exceptIsErr])
          · exact Or.inl hp
          · exact Or.inr hok
        | none =>
          simp only [hminit] at h hop
          rcases setupAfterDevice_ok_ops env fsys isStable now controlPort streamPort
              clientType clientAutolaunch staticResourcesDir cfg serial now
              { mgr with initialAutolaunchDelay := some now } st h op hop
            with hld | hp | hok
          · subst hld; exact Or.inr (by simp [opIsError, hdev, exceptIsErr])
          · exact Or.inl hp
          · exact Or.inr hok

/-- Witness for C3: a concrete run where every installed-package probe fails
at the bridge level and the call still succeeds with the not-installed
status. -/
theorem C3_bridge_failures_witness :
    (setup envProbeFail fsysEmpty true 5 9943 9944 .Store true "/static" none
        ⟨some 2, none⟩).result = .ok (.NotReady "No suitable ALVR client is installed") :=
  C3_bridge_failures.2.1 envProbeFail fsysEmpty true 5 9943 9944 .Store true "/static" none
    ⟨some 2, none⟩ [⟨some "SER"⟩] "SER" [9943, 9944]
    [BridgeOp.listDevices, BridgeOp.listForwardedPorts "SER"]
    (by decide) (by decide) (by decide) (by decide) (by decide) (by decide)

/-! Lemmas for the idempotence analysis: rerunning the process phase from the
state it produced, with unchanged device answers, reproduces the same outcome
unless the first run started the application. -/

theorem isDeviceMutatingOp_false_not_start (op : BridgeOp)
    (h : isDeviceMutatingOp op = false) : isStartApplicationOp op = false := by
  cases op <;> simp_all [isDeviceMutatingOp, isForwardOp, isRemoveForwardOp, isInstallOp,
    isUninstallOp, isGrantOp, isStartApplicationOp]

theorem processPhase_stable (env : Env) (s : String) (ids : List String) (auto : Bool)
    (now init : Nat) (mgr : ManagerState) (tr : List BridgeOp)
    (h : ∀ op ∈ (processPhase env s ids auto now init mgr tr).trace,
        isStartApplicationOp op = false) :
    processPhase env s ids auto now init
        (processPhase env s ids auto now init mgr tr).mgr tr
      = ⟨(processPhase env s ids auto now init mgr tr).result,
          (processPhase env s ids auto now init mgr tr).mgr,
          (processPhase env s ids auto now init mgr tr).trace⟩ := by
  cases hg : (get_process_name env s ids []).1 with
  | none =>
    have ho : processPhase env s ids auto now init mgr tr
        = ⟨.ok (.NotReady "No suitable ALVR client is installed"), mgr,
            tr ++ (get_process_name env s ids []).2⟩ := by
      simp only [processPhase]
      rw [get_process_name_frame env s ids tr]
      simp [hg]
    rw [ho]; exact ho
  | some pname =>
    cases hp : env.getProcessId s pname with
    | error e =>
      have ho : processPhase env s ids auto now init mgr tr
          = ⟨.error e, mgr,
              (tr ++ (get_process_name env s ids []).2)
                ++ [BridgeOp.getProcessId s pname]⟩ := by
        simp only [processPhase]
        rw [get_process_name_frame env s ids tr]
        simp [hg, hp]
      rw [ho]; exact ho
    | ok opid =>
      cases opid with
      | none =>
        cases hc : auto && mgr.postAutolaunchDelay.isNone with
        | false =>
          have ho : processPhase env s ids auto now init mgr tr
              = ⟨.ok (.NotReady "ALVR client is not running"), mgr,
                  (tr ++ (get_process_name env s ids []).2)
                    ++ [BridgeOp.getProcessId s pname]⟩ := by
            simp only [processPhase]
            rw [get_process_name_frame env s ids tr]
            simp [hg, hp, hc]
          rw [ho]; exact ho
        | true =>
          by_cases ht : now - init < preAutolaunchDelaySecs
          · have ho : processPhase env s ids auto now init mgr tr
                = ⟨.ok (.NotReady "Awaiting pre autolaunch delay"), mgr,
                    (tr ++ (get_process_name env s ids []).2)
                      ++ [BridgeOp.getProcessId s pname]⟩ := by
              simp only [processPhase]
              rw [get_process_name_frame env s ids tr]
              simp [hg, hp, hc, ht]
            rw [ho]; exact ho
          · exfalso
            have hmem : BridgeOp.startApplication s pname
                ∈ (processPhase env s ids auto now init mgr tr).trace := by
              simp only [processPhase]
              rw [get_process_name_frame env s ids tr]
              cases hsa : env.startApplication s pname with
              | error e => simp [hg, hp, hc, ht, hsa]
              | ok u => simp [hg, hp, hc, ht, hsa]
            exact absurd (h _ hmem) (by simp [isStartApplicationOp])
      | some pid =>
        cases hr : env.isActivityResumed s pname with
        | error e =>
          have ho : processPhase env s ids auto now init mgr tr
              = ⟨.error e, mgr,
                  ((tr ++ (get_process_name env s ids []).2)
                    ++ [BridgeOp.getProcessId s pname])
                    ++ [BridgeOp.isActivityResumed s pname]⟩ := by
            simp only [processPhase]
            rw [get_process_name_frame env s ids tr]
            simp [hg, hp, hr]
          rw [ho]; exact ho
        | ok b =>
          cases b with
          | false =>
            have ho : processPhase env s ids auto now init mgr tr
                = ⟨.ok (.NotReady "ALVR client is paused"), mgr,
                    ((tr ++ (get_process_name env s ids []).2)
                      ++ [BridgeOp.getProcessId s pname])
                      ++ [BridgeOp.isActivityResumed s pname]⟩ := by
              simp only [processPhase]
              rw [get_process_name_frame env s ids tr]
              simp [hg, hp, hr]
            rw [ho]; exact ho
          | true =>
            cases hpost : mgr.postAutolaunchDelay with
            | none =>
              have ho : processPhase env s ids auto now init mgr tr
                  = ⟨.ok .Ready, mgr,
                      ((tr ++ (get_process_name env s ids []).2)
                        ++ [BridgeOp.getProcessId s pname])
                        ++ [BridgeOp.isActivityResumed s pname]⟩ := by
                simp only [processPhase]
                rw [get_process_name_frame env s ids tr]
                simp [hg, hp, hr, hpost]
              rw [ho]; exact ho
            | some t =>
              by_cases ht : now - t < postAutolaunchDelaySecs
              · have ho : processPhase env s ids auto now init mgr tr
                    = ⟨.ok (.NotReady "Awaiting post autolaunch delay"), mgr,
                        ((tr ++ (get_process_name env s ids []).2)
                          ++ [BridgeOp.getProcessId s pname])
                          ++ [BridgeOp.isActivityResumed s pname]⟩ := by
                  simp only [processPhase]
                  rw [get_process_name_frame env s ids tr]
                  simp [hg, hp, hr, hpost, ht]
                rw [ho]; exact ho
              · have ho : processPhase env s ids auto now init mgr tr
                    = ⟨.ok .Ready, { mgr with postAutolaunchDelay := none },
                        ((tr ++ (get_process_name env s ids []).2)
                          ++ [BridgeOp.getProcessId s pname])
                          ++ [BridgeOp.isActivityResumed s pname]⟩ := by
                  simp only [processPhase]
                  rw [get_process_name_frame env s ids tr]
                  simp [hg, hp, hr, hpost, ht]
                rw [ho]
                simp only [processPhase]
                rw [get_process_name_frame env s ids tr]
                simp [hg, hp, hr]

theorem processPhase_launch (env : Env) (s : String) (ids : List String) (auto : Bool)
    (now init : Nat) (mgr : ManagerState) (tr : List BridgeOp)
    (h : (processPhase env s ids auto now init mgr tr).result
      = .ok (.NotReady "Starting ALVR client")) :
    ∃ pname,
      processPhase env s ids auto now init mgr tr
        = ⟨.ok (.NotReady "Starting ALVR client"),
            { mgr with postAutolaunchDelay := some now },
            ((tr ++ (get_process_name env s ids []).2)
              ++ [BridgeOp.getProcessId s pname]) ++ [BridgeOp.startApplication s pname]⟩
      ∧ processPhase env s ids auto now init
          { mgr with postAutolaunchDelay := some now } tr
        = ⟨.ok (.NotReady "ALVR client is not running"),
            { mgr with postAutolaunchDelay := some now },
            (tr ++ (get_process_name env s ids []).2)
              ++ [BridgeOp.getProcessId s pname]⟩ := by
  cases hg : (get_process_name env s ids []).1 with
  | none =>
    have ho : (processPhase env s ids auto now init mgr tr).result
        = .ok (.NotReady "No suitable ALVR client is installed") := by
      simp only [processPhase]
      rw [get_process_name_frame env s ids tr]
      simp [hg]
    rw [ho] at h
    simp at h
  | some pname =>
    cases hp : env.getProcessId s pname with
    | error e =>
      have ho : (processPhase env s ids auto now init mgr tr).result = .error e := by
        simp only [processPhase]
        rw [get_process_name_frame env s ids tr]
        simp [hg, hp]
      rw [ho] at h
      simp at h
    | ok opid =>
      cases opid with
      | none =>
        cases hc : auto && mgr.postAutolaunchDelay.isNone with
        | false =>
          have ho : (processPhase env s ids auto now init mgr tr).result
              = .ok (.NotReady "ALVR client is not running") := by
            simp only [processPhase]
            rw [get_process_name_frame env s ids tr]
            simp [hg, hp, hc]
          rw [ho] at h
          simp at h
        | true =>
          by_cases ht : now - init < preAutolaunchDelaySecs
          · have ho : (processPhase env s ids auto now init mgr tr).result
                = .ok (.NotReady "Awaiting pre autolaunch delay") := by
              simp only [processPhase]
              rw [get_process_name_frame env s ids tr]
              simp [hg, hp, hc, ht]
            rw [ho] at h
            simp at h
          · cases hsa : env.startApplication s pname with
            | error e =>
              have ho : (processPhase env s ids auto now init mgr tr).result = .error e := by
                simp only [processPhase]
                rw [get_process_name_frame env s ids tr]
                simp [hg, hp, hc, ht, hsa]
              rw [ho] at h
              simp at h
            | ok u =>
              have hmn : mgr.postAutolaunchDelay = none := by
                simp only [Bool.and_eq_true] at hc
                exact Option.isNone_iff_eq_none.mp hc.2
              refine ⟨pname, ?_, ?_⟩
              · simp only [processPhase]
                rw [get_process_name_frame env s ids tr]
                simp [hg, hp, hc, ht, hsa]
              · simp only [processPhase]
                rw [get_process_name_frame env s ids tr]
                simp [hg, hp]
      | some pid =>
        cases hr : env.isActivityResumed s pname with
        | error e =>
          have ho : (processPhase env s ids auto now init mgr tr).result = .error e := by
            simp only [processPhase]
            rw [get_process_name_frame env s ids tr]
            simp [hg, hp, hr]
          rw [ho] at h
          simp at h
        | ok b =>
          cases b with
          | false =>
            have ho : (processPhase env s ids auto now init mgr tr).result
                = .ok (.NotReady "ALVR client is paused") := by
              simp only [processPhase]
              rw [get_process_name_frame env s ids tr]
              simp [hg, hp, hr]
            rw [ho] at h
            simp at h
          | true =>
            cases hpost : mgr.postAutolaunchDelay with
            | none =>
              have ho : (processPhase env s ids auto now init mgr tr).result = .ok .Ready := by
                simp only [processPhase]
                rw [get_process_name_frame env s ids tr]
                simp [hg, hp, hr, hpost]
              rw [ho] at h
              simp at h
            | some t =>
              by_cases ht : now - t < postAutolaunchDelaySecs
              · have ho : (processPhase env s ids auto now init mgr tr).result
                    = .ok (.NotReady "Awaiting post autolaunch delay") := by
                  simp only [processPhase]
                  rw [get_process_name_frame env s ids tr]
                  simp [hg, hp, hr, hpost, ht]
                rw [ho] at h
                simp at h
              · have ho : (processPhase env s ids auto now init mgr tr).result
                    = .ok .Ready := by
                  simp only [processPhase]
                  rw [get_process_name_frame env s ids tr]
                  simp [hg, hp, hr, hpost, ht]
                rw [ho] at h
                simp at h

theorem setupAfterDevice_initial (env : Env) (fsys : Fsys) (isStable : Bool) (now : Nat)
    (controlPort streamPort : Nat) (clientType : ClientFlavor) (clientAutolaunch : Bool)
    (staticResourcesDir : String) (cfg : Option WiredClientAutoInstallConfig)
    (serial : String) (init : Nat) (mgrIn : ManagerState) :
    (setupAfterDevice env fsys isStable now controlPort streamPort clientType
        clientAutolaunch staticResourcesDir cfg serial init mgrIn).mgr.initialAutolaunchDelay
      = mgrIn.initialAutolaunchDelay := by
  simp only [setupAfterDevice]
  split
  · simp
  · split
    · simp
    · split
      · simp
      · apply processPhase_initial

theorem setupAfterDevice_stable (env : Env) (fsys : Fsys) (isStable : Bool) (now : Nat)
    (controlPort streamPort : Nat) (clientType : ClientFlavor) (clientAutolaunch : Bool)
    (staticResourcesDir : String) (cfg : Option WiredClientAutoInstallConfig)
    (serial : String) (init : Nat) (mgrIn : ManagerState)
    (h : ∀ op ∈ (setupAfterDevice env fsys isStable now controlPort streamPort clientType
        clientAutolaunch staticResourcesDir cfg serial init mgrIn).trace,
        isStartApplicationOp op = false) :
    setupAfterDevice env fsys isStable now controlPort streamPort clientType
        clientAutolaunch staticResourcesDir cfg serial init
        (setupAfterDevice env fsys isStable now controlPort streamPort clientType
          clientAutolaunch staticResourcesDir cfg serial init mgrIn).mgr
      = ⟨(setupAfterDevice env fsys isStable now controlPort streamPort clientType
            clientAutolaunch staticResourcesDir cfg serial init mgrIn).result,
          (setupAfterDevice env fsys isStable now controlPort streamPort clientType
            clientAutolaunch staticResourcesDir cfg serial init mgrIn).mgr,
          (setupAfterDevice env fsys isStable now controlPort streamPort clientType
            clientAutolaunch staticResourcesDir cfg serial init mgrIn).trace⟩ := by
  cases hlfp : env.listForwardedPorts serial with
  | error e =>
    have ho : setupAfterDevice env fsys isStable now controlPort streamPort clientType
        clientAutolaunch staticResourcesDir cfg serial init mgrIn
      = ⟨.error e, mgrIn, [BridgeOp.listDevices, BridgeOp.listForwardedPorts serial]⟩ := by
      simp only [setupAfterDevice]
      simp [hlfp]
    rw [ho]; exact ho
  | ok fps =>
    cases hfl : forwardLoop env serial (missingPorts controlPort streamPort fps)
        [BridgeOp.listDevices, BridgeOp.listForwardedPorts serial] with
    | mk r1 tr1 =>
      cases r1 with
      | error e =>
        have ho : setupAfterDevice env fsys isStable now controlPort streamPort clientType
            clientAutolaunch staticResourcesDir cfg serial init mgrIn
          = ⟨.error e, mgrIn, tr1⟩ := by
          simp only [setupAfterDevice]
          simp [hlfp, hfl]
        rw [ho]; exact ho
      | ok u =>
        cases hAI : autoInstallStep env fsys serial (get_application_ids isStable clientType)
            staticResourcesDir cfg tr1 with
        | mk r2 tr2 =>
          cases r2 with
          | error e =>
            have ho : setupAfterDevice env fsys isStable now controlPort streamPort
                clientType clientAutolaunch staticResourcesDir cfg serial init mgrIn
              = ⟨.error e, mgrIn, tr2⟩ := by
              simp only [setupAfterDevice]
              simp [hlfp, hfl, hAI]
            rw [ho]; exact ho
          | ok u2 =>
            have hform : ∀ M : ManagerState,
                setupAfterDevice env fsys isStable now controlPort streamPort clientType
                  clientAutolaunch staticResourcesDir cfg serial init M
                = processPhase env serial (get_application_ids isStable clientType)
                    clientAutolaunch now init M tr2 := by
              intro M
              simp only [setupAfterDevice]
              simp [hlfp, hfl, hAI]
            rw [hform] at h
            simp only [hform]
            exact processPhase_stable env serial (get_application_ids isStable clientType)
              clientAutolaunch now init mgrIn tr2 h

theorem setupAfterDevice_launch (env : Env) (fsys : Fsys) (isStable : Bool) (now : Nat)
    (controlPort streamPort : Nat) (clientType : ClientFlavor) (clientAutolaunch : Bool)
    (staticResourcesDir : String) (cfg : Option WiredClientAutoInstallConfig)
    (serial : String) (init : Nat) (mgrIn : ManagerState)
    (h : (setupAfterDevice env fsys isStable now controlPort streamPort clientType
        clientAutolaunch staticResourcesDir cfg serial init mgrIn).result
      = .ok (.NotReady "Starting ALVR client")) :
    ∃ tr2 probes pname,
      (∀ op ∈ tr2, isStartApplicationOp op = false)
      ∧ (∀ op ∈ probes, isPkgProbeOp op = true)
      ∧ setupAfterDevice env fsys isStable now controlPort streamPort clientType
          clientAutolaunch staticResourcesDir cfg serial init mgrIn
        = ⟨.ok (.NotReady "Starting ALVR client"),
            { mgrIn with postAutolaunchDelay := some now },
            ((tr2 ++ probes) ++ [BridgeOp.getProcessId serial pname])
              ++ [BridgeOp.startApplication serial pname]⟩
      ∧ setupAfterDevice env fsys isStable now controlPort streamPort clientType
          clientAutolaunch staticResourcesDir cfg serial init
          { mgrIn with postAutolaunchDelay := some now }
        = ⟨.ok (.NotReady "ALVR client is not running"),
            { mgrIn with postAutolaunchDelay := some now },
            (tr2 ++ probes) ++ [BridgeOp.getProcessId serial pname]⟩ := by
  cases hlfp : env.listForwardedPorts serial with
  | error e =>
    have ho : (setupAfterDevice env fsys isStable now controlPort streamPort clientType
        clientAutolaunch staticResourcesDir cfg serial init mgrIn).result = .error e := by
      simp only [setupAfterDevice]
      simp [hlfp]
    rw [ho] at h
    simp at h
  | ok fps =>
    cases hfl : forwardLoop env serial (missingPorts controlPort streamPort fps)
        [BridgeOp.listDevices, BridgeOp.listForwardedPorts serial] with
    | mk r1 tr1 =>
      cases r1 with
      | error e =>
        have ho : (setupAfterDevice env fsys isStable now controlPort streamPort clientType
            clientAutolaunch staticResourcesDir cfg serial init mgrIn).result = .error e := by
          simp only [setupAfterDevice]
          simp [hlfp, hfl]
        rw [ho] at h
        simp at h
      | ok u =>
        cases hAI : autoInstallStep env fsys serial (get_application_ids isStable clientType)
            staticResourcesDir cfg tr1 with
        | mk r2 tr2 =>
          cases r2 with
          | error e =>
            have ho : (setupAfterDevice env fsys isStable now controlPort streamPort
                clientType clientAutolaunch staticResourcesDir cfg serial init mgrIn).result
              = .error e := by
              simp only [setupAfterDevice]
              simp [hlfp, hfl, hAI]
            rw [ho] at h
            simp at h
          | ok u2 =>
            have hform : ∀ M : ManagerState,
                setupAfterDevice env fsys isStable now controlPort streamPort clientType
                  clientAutolaunch staticResourcesDir cfg serial init M
                = processPhase env serial (get_application_ids isStable clientType)
                    clientAutolaunch now init M tr2 := by
              intro M
              simp only [setupAfterDevice]
              simp [hlfp, hfl, hAI]
            rw [hform] at h
            obtain ⟨pname, hP1, hP2⟩ := processPhase_launch env serial
              (get_application_ids isStable clientType) clientAutolaunch now init mgrIn tr2 h
            have htr2ns : ∀ op ∈ tr2, isStartApplicationOp op = false := by
              intro op hop
              have hops := autoInstallStep_ops env fsys serial
                (get_application_ids isStable clientType) staticResourcesDir cfg tr1 op
              rw [hAI] at hops
              rcases hops hop with hmem | hauto
              · have hops2 := forwardLoop_ops env serial
                  (missingPorts controlPort streamPort fps)
                  [BridgeOp.listDevices, BridgeOp.listForwardedPorts serial] op
                rw [hfl] at hops2
                rcases hops2 hmem with hmem2 | hfw
                · simp only [List.mem_cons, List.not_mem_nil, or_false] at hmem2
                  rcases hmem2 with rfl | rfl <;> simp [isStartApplicationOp]
                · cases op <;> simp_all [isForwardOp, isStartApplicationOp]
              · exact (isAutoInstallOp_not op hauto).2.2
            have hprobes : ∀ op ∈ (get_process_name env serial
                (get_application_ids isStable clientType) []).2, isPkgProbeOp op = true := by
              intro op hop
              rcases get_process_name_ops env serial
                  (get_application_ids isStable clientType) [] op hop with hmem | hp
              · simp at hmem
              · exact hp
            refine ⟨tr2, (get_process_name env serial
              (get_application_ids isStable clientType) []).2, pname,
              htr2ns, hprobes, ?_, ?_⟩
            · rw [hform, hP1]
            · rw [hform, hP2]

/-- Claim C9 counterexample: with an installed but not-running client,
autolaunch enabled and the pre-launch delay elapsed, a first `setup` call
starts the application and returns `NotReady "Starting ALVR client"`; an
immediately following call with identical device-side answers returns
`NotReady "ALVR client is not running"` — a different status. -/
theorem C9_counterexample :
    (setup envLaunch fsysEmpty true 20 9943 9944 .Store true "/static" none
        ⟨some 0, none⟩).result = .ok (.NotReady "Starting ALVR client")
    ∧ (setup envLaunch fsysEmpty true 20 9943 9944 .Store true "/static" none
        (setup envLaunch fsysEmpty true 20 9943 9944 .Store true "/static" none
          ⟨some 0, none⟩).mgr).result = .ok (.NotReady "ALVR client is not running") := by
  decide

/-- Claim C9 as amended: calling `setup` twice in immediate succession with
unchanged device-side answers is idempotent as long as the first call issued
no device-mutating operation (no forward, removal, install, uninstall, grant
or start): the second call returns the same status and issues the identical
operation trace — in particular no duplicate install or forward request.  If
the first call launched the application (its only mutating operation being the
start request), the second call instead returns
`NotReady "ALVR client is not running"` and issues no device-mutating
operation at all. -/
theorem C9_idempotence (env : Env) (fsys : Fsys) (isStable : Bool) (now : Nat)
    (controlPort streamPort : Nat) (clientType : ClientFlavor) (clientAutolaunch : Bool)
    (staticResourcesDir : String) (cfg : Option WiredClientAutoInstallConfig)
    (mgr : ManagerState) :
    ((∀ op ∈ (setup env fsys isStable now controlPort streamPort clientType clientAutolaunch
        staticResourcesDir cfg mgr).trace, isDeviceMutatingOp op = false) →
      (setup env fsys isStable now controlPort streamPort clientType clientAutolaunch
          staticResourcesDir cfg
          (setup env fsys isStable now controlPort streamPort clientType clientAutolaunch
            staticResourcesDir cfg mgr).mgr).result
        = (setup env fsys isStable now controlPort streamPort clientType clientAutolaunch
            staticResourcesDir cfg mgr).result
      ∧ (setup env fsys isStable now controlPort streamPort clientType clientAutolaunch
          staticResourcesDir cfg
          (setup env fsys isStable now controlPort streamPort clientType clientAutolaunch
            staticResourcesDir cfg mgr).mgr).trace
        = (setup env fsys isStable now controlPort streamPort clientType clientAutolaunch
            staticResourcesDir cfg mgr).trace)
    ∧ ((∀ op ∈ (setup env fsys isStable now controlPort streamPort clientType clientAutolaunch
          staticResourcesDir cfg mgr).trace,
        isDeviceMutatingOp op = false ∨ isStartApplicationOp op = true) →
      (setup env fsys isStable now controlPort streamPort clientType clientAutolaunch
          staticResourcesDir cfg mgr).result = .ok (.NotReady "Starting ALVR client") →
      (setup env fsys isStable now controlPort streamPort clientType clientAutolaunch
          staticResourcesDir cfg
          (setup env fsys isStable now controlPort streamPort clientType clientAutolaunch
            staticResourcesDir cfg mgr).mgr).result
        = .ok (.NotReady "ALVR client is not running")
      ∧ (∀ op ∈ (setup env fsys isStable now controlPort streamPort clientType
          clientAutolaunch staticResourcesDir cfg
          (setup env fsys isStable now controlPort streamPort clientType clientAutolaunch
            staticResourcesDir cfg mgr).mgr).trace, isDeviceMutatingOp op = false)) := by
  cases hdev : env.listDevices with
  | error e =>
    have ho : setup env fsys isStable now controlPort streamPort clientType clientAutolaunch
        staticResourcesDir cfg mgr = ⟨.error e, mgr, [BridgeOp.listDevices]⟩ := by
      simp [setup, hdev]
    constructor
    · intro hmut
      rw [ho]
      exact ⟨congrArg Outcome.result ho, congrArg Outcome.trace ho⟩
    · intro hops hstart
      rw [ho] at hstart
      simp at hstart
  | ok devices =>
    cases hfind : (devices.filterMap AdbDevice.serial).find?
        (fun s => !strStartsWith s "127.0.0.1") with
    | none =>
      have ho : setup env fsys isStable now controlPort streamPort clientType clientAutolaunch
          staticResourcesDir cfg mgr
        = ⟨.ok (.NotReady "No wired devices found"),
            { initialAutolaunchDelay := none, postAutolaunchDelay := none },
            [BridgeOp.listDevices]⟩ := by
        simp [setup, hdev, hfind]
      have ho2 : setup env fsys isStable now controlPort streamPort clientType
          clientAutolaunch staticResourcesDir cfg
          { initialAutolaunchDelay := none, postAutolaunchDelay := none }
        = ⟨.ok (.NotReady "No wired devices found"),
            { initialAutolaunchDelay := none, postAutolaunchDelay := none },
            [BridgeOp.listDevices]⟩ := by
        simp [setup, hdev, hfind]
      constructor
      · intro hmut
        rw [ho]
        exact ⟨congrArg Outcome.result ho2, congrArg Outcome.trace ho2⟩
      · intro hops hstart
        rw [ho] at hstart
        simp at hstart
    | some serial =>
      have hsetup := setup_eq_afterDevice env fsys isStable now controlPort streamPort
        clientType clientAutolaunch staticResourcesDir cfg mgr devices serial hdev hfind
      cases hminit : mgr.initialAutolaunchDelay with
      | some t0 =>
        simp only [hminit] at hsetup
        have hinit2 : (setupAfterDevice env fsys isStable now controlPort streamPort
            clientType clientAutolaunch staticResourcesDir cfg serial t0
            mgr).mgr.initialAutolaunchDelay = some t0 := by
          rw [setupAfterDevice_initial]
          exact hminit
        have hsetup2 := setup_eq_afterDevice env fsys isStable now controlPort streamPort
          clientType clientAutolaunch staticResourcesDir cfg
          (setupAfterDevice env fsys isStable now controlPort streamPort clientType
            clientAutolaunch staticResourcesDir cfg serial t0 mgr).mgr
          devices serial hdev hfind
        simp only [hinit2] at hsetup2
        rw [hsetup, hsetup2]
        constructor
        · intro hmut
          have hstable := setupAfterDevice_stable env fsys isStable now controlPort streamPort
            clientType clientAutolaunch staticResourcesDir cfg serial t0 mgr
            (fun op hop => isDeviceMutatingOp_false_not_start op (hmut op hop))
          rw [hstable]
          exact ⟨rfl, rfl⟩
        · intro hops hstart
          obtain ⟨tr2, probes, pname, htr2ns, hprobes, hS1, hrerun⟩ :=
            setupAfterDevice_launch env fsys isStable now controlPort streamPort clientType
              clientAutolaunch staticResourcesDir cfg serial t0 mgr hstart
          have hmgr : (setupAfterDevice env fsys isStable now controlPort streamPort
              clientType clientAutolaunch staticResourcesDir cfg serial t0 mgr).mgr
            = { mgr with postAutolaunchDelay := some now } := by
            rw [hS1]
          rw [hmgr, hrerun]
          refine ⟨rfl, ?_⟩
          intro op hop
          simp only [List.mem_append, List.mem_singleton] at hop
          rcases hop with (hop | hop) | hop
          · have hmem : op ∈ (setupAfterDevice env fsys isStable now controlPort streamPort
                clientType clientAutolaunch staticResourcesDir cfg serial t0 mgr).trace := by
              rw [hS1]
              simp [hop]
            rcases hops op hmem with hnm | hst
            · exact hnm
            · exact absurd hst (by simp [htr2ns op hop])
          · exact isPkgProbeOp_not op (hprobes op hop)
          · subst hop
            simp [isDeviceMutatingOp, isForwardOp, isRemoveForwardOp, isInstallOp,
              isUninstallOp, isGrantOp, isStartApplicationOp]
      | none =>
        simp only [hminit] at hsetup
        have hinit2 : (setupAfterDevice env fsys isStable now controlPort streamPort
            clientType clientAutolaunch staticResourcesDir cfg serial now
            { mgr with initialAutolaunchDelay := some now }).mgr.initialAutolaunchDelay
          = some now := by
          rw [setupAfterDevice_initial]
        have hsetup2 := setup_eq_afterDevice env fsys isStable now controlPort streamPort
          clientType clientAutolaunch staticResourcesDir cfg
          (setupAfterDevice env fsys isStable now controlPort streamPort clientType
            clientAutolaunch staticResourcesDir cfg serial now
            { mgr with initialAutolaunchDelay := some now }).mgr
          devices serial hdev hfind
        simp only [hinit2] at hsetup2
        rw [hsetup, hsetup2]
        constructor
        · intro hmut
          have hstable := setupAfterDevice_stable env fsys isStable now controlPort streamPort
            clientType clientAutolaunch staticResourcesDir cfg serial now
            { mgr with initialAutolaunchDelay := some now }
            (fun op hop => isDeviceMutatingOp_false_not_start op (hmut op hop))
          rw [hstable]
          exact ⟨rfl, rfl⟩
        · intro hops hstart
          obtain ⟨tr2, probes, pname, htr2ns, hprobes, hS1, hrerun⟩ :=
            setupAfterDevice_launch env fsys isStable now controlPort streamPort clientType
              clientAutolaunch staticResourcesDir cfg serial now
              { mgr with initialAutolaunchDelay := some now } hstart
          have hmgr : (setupAfterDevice env fsys isStable now controlPort streamPort
              clientType clientAutolaunch staticResourcesDir cfg serial now
              { mgr with initialAutolaunchDelay := some now }).mgr
            = { { mgr with initialAutolaunchDelay := some now } with
                postAutolaunchDelay := some now } := by
            rw [hS1]
          rw [hmgr, hrerun]
          refine ⟨rfl, ?_⟩
          intro op hop
          simp only [List.mem_append, List.mem_singleton] at hop
          rcases hop with (hop | hop) | hop
          · have hmem : op ∈ (setupAfterDevice env fsys isStable now controlPort streamPort
                clientType clientAutolaunch staticResourcesDir cfg serial now
                { mgr with initialAutolaunchDelay := some now }).trace := by
              rw [hS1]
              simp [hop]
            rcases hops op hmem with hnm | hst
            · exact hnm
            · exact absurd hst (by simp [htr2ns op hop])
          · exact isPkgProbeOp_not op (hprobes op hop)
          · subst hop
            simp [isDeviceMutatingOp, isForwardOp, isRemoveForwardOp, isInstallOp,
              isUninstallOp, isGrantOp, isStartApplicationOp]

/-- Witness for C9: a ready client (installed, running, resumed, no pending
timer) yields the same `Ready` status and the identical trace on an immediate
second call. -/
theorem C9_idempotence_witness :
    (setup envReady fsysEmpty true 20 9943 9944 .Store true "/static" none
        (setup envReady fsysEmpty true 20 9943 9944 .Store true "/static" none
          ⟨some 0, none⟩).mgr).result
      = (setup envReady fsysEmpty true 20 9943 9944 .Store true "/static" none
          ⟨some 0, none⟩).result :=
  ((C9_idempotence envReady fsysEmpty true 20 9943 9944 .Store true "/static" none
    ⟨some 0, none⟩).1 (by decide)).1

end Alvr
